import Mathlib

/-!
Verification development for the konko-agent conversational core.

Shallow embedding of the turn-control state machine
(`packages/agent_core/graph/*`), the escalation policy engine
(`packages/agent_core/escalation/*`) and the conversation data model
(`packages/agent_runtime/state.py`).

Modelling conventions:
* Python `str` becomes `String` / `List Char`; only ASCII case folding is
  modelled (`str.lower`/`str.upper` on the inputs exercised here are ASCII).
* Python `float` becomes `ℚ`; decimal literals are parsed exactly, binary
  rounding and the special values `inf`/`nan` are outside the model.
* `datetime` timestamps become `ℚ` seconds; `datetime.now()` is passed in
  explicitly as a `now` parameter.
* The LLM capability (`LLMProvider.ainvoke`) is an opaque fallible function
  `String → Except Unit String`; an `Except.error` models a raised exception.
* Python dicts keyed by strings become insertion-ordered association lists,
  matching CPython's insertion-ordered dict semantics.
-/

namespace Konko

/-! ### ASCII string helpers (models of Python str methods) -/

/-- ASCII lower-casing of one character, as `str.lower` does for ASCII. -/
def lowerChar (c : Char) : Char :=
  if 'A' ≤ c ∧ c ≤ 'Z' then Char.ofNat (c.toNat + 32) else c

/-- ASCII upper-casing of one character, as `str.upper` does for ASCII. -/
def upperChar (c : Char) : Char :=
  if 'a' ≤ c ∧ c ≤ 'z' then Char.ofNat (c.toNat - 32) else c

/-- Model of Python `str.lower()` (ASCII fragment). -/
def pyLower (s : String) : String := String.mk (s.data.map lowerChar)

/-- Model of Python `str.upper()` (ASCII fragment). -/
def pyUpper (s : String) : String := String.mk (s.data.map upperChar)

/-- Python whitespace characters recognised by `str.strip`/`str.split`. -/
def isWs (c : Char) : Bool :=
  c == ' ' || c == '\t' || c == '\n' || c == '\r' || c == Char.ofNat 11 || c == Char.ofNat 12

/-- Strip leading and trailing whitespace from a character list. -/
def pyStripL (l : List Char) : List Char :=
  ((l.dropWhile isWs).reverse.dropWhile isWs).reverse

/-- Model of Python `str.strip()`. -/
def pyStrip (s : String) : String := String.mk (pyStripL s.data)

/-- Helper for `pySplit`: accumulates the current token (reversed). -/
def pySplitAux : List Char → List Char → List (List Char)
  | [], tok => if tok.isEmpty then [] else [tok.reverse]
  | c :: rest, tok =>
    if isWs c then
      if tok.isEmpty then pySplitAux rest [] else tok.reverse :: pySplitAux rest []
    else pySplitAux rest (c :: tok)

/-- Model of Python `str.split()` with no argument: split on whitespace
runs, discarding empty tokens. -/
def pySplit (s : String) : List String :=
  (pySplitAux s.data []).map String.mk

/-- Does the first list occur as a leading segment of the second list? -/
def leadMatch : List Char → List Char → Bool
  | [], _ => true
  | _ :: _, [] => false
  | a :: as, b :: bs => a == b && leadMatch as bs

/-- Model of Python `needle in hay` substring membership for strings. -/
def containsSubL (needle : List Char) : List Char → Bool
  | [] => leadMatch needle []
  | c :: rest => leadMatch needle (c :: rest) || containsSubL needle rest

/-- Model of Python `needle in hay` for `String`s. -/
def containsSub (needle hay : String) : Bool := containsSubL needle.data hay.data

/-- Model of Python `s.split(sep)` for a one-character separator. -/
def splitCharL (sep : Char) : List Char → List (List Char)
  | [] => [[]]
  | c :: rest =>
    if c == sep then [] :: splitCharL sep rest
    else
      match splitCharL sep rest with
      | [] => [[c]]
      | t :: ts => (c :: t) :: ts

/-- Everything after the first occurrence of `sep`
(models `s.split(sep, 1)[1]` when `sep` is known to occur). -/
def afterCharL (sep : Char) : List Char → List Char
  | [] => []
  | c :: rest => if c == sep then rest else afterCharL sep rest

/-- Model of Python `s.startswith(needle)`. -/
def pyStartsWith (needle s : String) : Bool := leadMatch needle.data s.data

/-- Consume a literal from the head of the input, or fail. -/
def dropLitL : List Char → List Char → Option (List Char)
  | [], s => some s
  | _ :: _, [] => none
  | a :: as, b :: bs => if a == b then dropLitL as bs else none

/-- Replacement loop of `str.replace` for a nonempty pattern; the fuel is
the input length (each step consumes at least one character). -/
def replaceLF (pat rep : List Char) : Nat → List Char → List Char
  | 0, s => s
  | _ + 1, [] => []
  | n + 1, c :: rest =>
    if pat.isEmpty then c :: rest
    else
      match dropLitL pat (c :: rest) with
      | some after => rep ++ replaceLF pat rep n after
      | none => c :: replaceLF pat rep n rest

/-- Model of Python `s.replace(pat, rep)` (non-overlapping, left to right;
used only with nonempty patterns). -/
def pyReplace (s pat rep : String) : String :=
  String.mk (replaceLF pat.data rep.data s.data.length s.data)

/-- Python `repr` of a list of strings, e.g. `['a', 'b']`
(used only inside LLM prompts). -/
def pyListRepr (l : List String) : String :=
  "[" ++ String.intercalate ", " (l.map (fun s => "\x27" ++ s ++ "\x27")) ++ "]"

/-- Python `str` of a string-to-string dict, e.g. `{'a': 'b'}`
(used only inside LLM prompts). -/
def pyDictRepr (l : List (String × String)) : String :=
  "\x7b" ++
    String.intercalate ", "
      (l.map (fun p => "\x27" ++ p.1 ++ "\x27: \x27" ++ p.2 ++ "\x27")) ++
  "\x7d"

/-- Python `str(b)` for a bool: `True` / `False`. -/
def pyBool (b : Bool) : String := if b then "True" else "False"

/-- Python truthiness of an optional string (`None` and `""` are falsy). -/
def truthyStr : Option String → Bool
  | none => false
  | some s => s ≠ ""

/-- The last character of a list, if any. -/
def lastChar? : List Char → Option Char
  | [] => none
  | [c] => some c
  | _ :: rest => lastChar? rest

/-- Everything but the last character. -/
def initChars : List Char → List Char
  | [] => []
  | [_] => []
  | c :: rest => c :: initChars rest

/-- The `$` assertion of `re.match` in single-line mode: it holds at the
end of the string or just before one final newline, so an anchored
pattern accepts the whole input, or the whole input minus a trailing
`'\n'`. -/
def matchDollar (core : List Char → Bool) (l : List Char) : Bool :=
  core l ||
    (match lastChar? l with
     | some c => c == '\n' && core (initChars l)
     | none => false)

/-! ### Model of Python `float(str)` on decimal literals

`float()` strips whitespace and accepts an optional sign, a decimal
mantissa with at least one digit, and an optional exponent.  The special
forms `inf`/`nan` and underscore separators are outside the model (no
claim depends on them). -/

/-- Digits of a character list read as a natural number, with the rest. -/
def readDigits : List Char → Nat → Nat → (Nat × Nat × List Char)
  | [], acc, n => (acc, n, [])
  | c :: rest, acc, n =>
    if c.isDigit then readDigits rest (acc * 10 + (c.toNat - 48)) (n + 1)
    else (acc, n, c :: rest)

/-- Parse an optional exponent part (`e`/`E`, optional sign, digits). -/
def parseExp : List Char → Option Int
  | [] => some 0
  | c :: rest =>
    if c == 'e' || c == 'E' then
      match rest with
      | '+' :: rest2 =>
        let (e, n, rem) := readDigits rest2 0 0
        if n = 0 ∨ rem ≠ [] then none else some (Int.ofNat e)
      | '-' :: rest2 =>
        let (e, n, rem) := readDigits rest2 0 0
        if n = 0 ∨ rem ≠ [] then none else some (-(Int.ofNat e))
      | _ =>
        let (e, n, rem) := readDigits rest 0 0
        if n = 0 ∨ rem ≠ [] then none else some (Int.ofNat e)
    else none

/-- Parse the unsigned mantissa and exponent; `none` models `ValueError`. -/
def parseMantissa (l : List Char) : Option ℚ :=
  let (ip, ni, rest) := readDigits l 0 0
  match rest with
  | '.' :: rest2 =>
    let (fp, nf, rest3) := readDigits rest2 0 0
    if ni + nf = 0 then none
    else
      match parseExp rest3 with
      | some e => some (((ip * 10 ^ nf + fp : ℚ) / 10 ^ nf) * (10 : ℚ) ^ e)
      | none => none
  | _ =>
    if ni = 0 then none
    else
      match parseExp rest with
      | some e => some ((ip : ℚ) * (10 : ℚ) ^ e)
      | none => none

/-- Model of Python `float(s)` on decimal literals; `none` models a
raised `ValueError`. -/
def pyFloat (s : String) : Option ℚ :=
  match pyStripL s.data with
  | '+' :: rest => parseMantissa rest
  | '-' :: rest => (parseMantissa rest).map (fun q => -q)
  | l => parseMantissa l

/-- Python `max(0.0, min(1.0, x))` clamp used by the LLM-backed handlers. -/
def clamp01 (q : ℚ) : ℚ := max 0 (min 1 q)

/-! ### Conversation data model (`agent_runtime/state.py`) -/

/-- `MessageRole` enum. -/
inductive Role where
  | agent
  | user
  | system
deriving DecidableEq

/-- `ConversationStatus` enum. -/
inductive CStatus where
  | active
  | completed
  | escalated
  | failed
deriving DecidableEq

/-- A single message (`Message`); the random uuid `id` field is dropped
from the model, and the timestamp is the `now` passed by the caller. -/
structure Message where
  role : Role
  content : String
  timestamp : ℚ
deriving DecidableEq

/-- `FieldValue`: a collected field value with validation status. -/
structure FieldValue where
  field_name : String
  value : Option String := none
  is_valid : Bool := false
  attempts : Nat := 0
  last_attempt_timestamp : Option ℚ := none
deriving DecidableEq

/-- `ConversationState`.  `collected_fields` is an insertion-ordered
association list modelling the Python dict; of the free-form `metadata`
dict only the `failure_reason` key (the single key written by the state
itself) is modelled. -/
structure CState where
  session_id : String
  status : CStatus := .active
  messages : List Message := []
  collected_fields : List (String × FieldValue) := []
  current_field : Option String := none
  escalation_triggered : Bool := false
  escalation_reason : Option String := none
  escalation_policy_id : Option String := none
  started_at : ℚ
  updated_at : ℚ
  ended_at : Option ℚ := none
  failure_reason : Option String := none
deriving DecidableEq

/-- Dict lookup in the collected-fields association list. -/
def lookupField (l : List (String × FieldValue)) (name : String) : Option FieldValue :=
  (l.find? (fun p => p.1 == name)).map (fun p => p.2)

/-- Dict assignment: replace in place if present, else append
(CPython dicts preserve insertion order). -/
def setFieldAssoc (l : List (String × FieldValue)) (name : String) (fv : FieldValue) :
    List (String × FieldValue) :=
  if l.any (fun p => p.1 == name) then
    l.map (fun p => if p.1 == name then (p.1, fv) else p)
  else l ++ [(name, fv)]

/-- `ConversationState.add_message`. -/
def CState.add_message (st : CState) (now : ℚ) (role : Role) (content : String) : CState :=
  { st with messages := st.messages ++ [⟨role, content, now⟩], updated_at := now }

/-- `ConversationState.update_field_value`: lazily creates the
`FieldValue` on first use, overwrites value/validity, and increments the
attempt counter unconditionally. -/
def CState.update_field_value (st : CState) (now : ℚ) (field_name : String)
    (value : Option String) (valid : Bool) : CState :=
  let cur := (lookupField st.collected_fields field_name).getD ⟨field_name, none, false, 0, none⟩
  let fv : FieldValue :=
    { cur with value := value, is_valid := valid, attempts := cur.attempts + 1,
               last_attempt_timestamp := some now }
  { st with collected_fields := setFieldAssoc st.collected_fields field_name fv,
            updated_at := now }

/-- `ConversationState.get_collected_data`: names and values of fields
that are valid and have a value, in insertion order. -/
def CState.get_collected_data (st : CState) : List (String × String) :=
  st.collected_fields.filterMap fun p =>
    match p.2.value with
    | some v => if p.2.is_valid then some (p.1, v) else none
    | none => none

/-- The key set of `get_collected_data`. -/
def CState.collectedNames (st : CState) : List String :=
  st.get_collected_data.map Prod.fst

/-- `ConversationState.get_missing_fields`. -/
def CState.get_missing_fields (st : CState) (required_fields : List String) : List String :=
  required_fields.filter (fun f => ¬ st.collectedNames.contains f)

/-- `ConversationState.mark_escalated`. -/
def CState.mark_escalated (st : CState) (now : ℚ) (reason : String)
    (policy_id : Option String) : CState :=
  { st with status := .escalated, escalation_triggered := true,
            escalation_reason := some reason, escalation_policy_id := policy_id,
            ended_at := some now, updated_at := now }

/-- `ConversationState.mark_completed`. -/
def CState.mark_completed (st : CState) (now : ℚ) : CState :=
  { st with status := .completed, ended_at := some now, updated_at := now }

/-- `ConversationState.mark_failed`. -/
def CState.mark_failed (st : CState) (now : ℚ) (reason : Option String) : CState :=
  { st with status := .failed,
            failure_reason := match reason with
              | some r => if r = "" then st.failure_reason else some r
              | none => st.failure_reason,
            ended_at := some now, updated_at := now }

/-- `ConversationState.get_duration_seconds`. -/
def CState.get_duration_seconds (st : CState) (now : ℚ) : ℚ :=
  (st.ended_at.getD now) - st.started_at

/-! ### Configuration model (`agent_config/schemas.py`) -/

/-- `AgentPersonality` (enum members carried as their string values). -/
structure Personality where
  tone : String := "professional"
  style : String := "concise"
  formality : String := "neutral"
  emoji_usage : Bool := false
  emoji_list : List String := []

/-- `FieldConfig`.  `validation_pattern` holds an arbitrary regex in the
source; it is modelled as the Boolean predicate induced by
`re.match(pattern, value)`. -/
structure FieldConfig where
  name : String
  field_type : String := "text"
  required : Bool := true
  validation_pattern : Option (String → Bool) := none
  prompt_hint : Option String := none

/-- The `config: Dict[str, Any]` map of an escalation policy, modelled by
the typed keys each handler reads; `none` models an absent key. -/
structure PolicyConfig where
  keywords : Option (List String) := none
  case_sensitive : Option Bool := none
  match_whole_word : Option Bool := none
  max_duration_seconds : Option ℚ := none
  threshold : Option ℚ := none
  include_history : Option Bool := none
  required_fields : Option (List String) := none
  escalate_when_complete : Option Bool := none
  intents : Option (List String) := none
  confidence_threshold : Option ℚ := none

/-- `EscalationPolicy`. -/
structure EscalationPolicy where
  enabled : Bool := true
  reason : String
  policy_type : String
  config : PolicyConfig := {}

/-- `AgentConfig`. -/
structure AgentConfig where
  personality : Personality := {}
  greeting : String := "Hello! I\x27m here to help collect some information."
  fields : List FieldConfig
  escalation_policies : List EscalationPolicy := []

/-- The fallible text capability `LLMProvider.ainvoke`;
`Except.error ()` models a raised exception. -/
def Oracle : Type := String → Except Unit String

/-! ### Validation (`ConversationalAgent._validate_*`) -/

/-- Character class `[a-zA-Z0-9._%+-]` of the email local part. -/
def emailLocalChar (c : Char) : Bool :=
  c.isAlpha || c.isDigit || c == '.' || c == '_' || c == '%' || c == '+' || c == '-'

/-- Character class `[a-zA-Z0-9.-]` of the email domain. -/
def emailDomainChar (c : Char) : Bool :=
  c.isAlpha || c.isDigit || c == '.' || c == '-'

/-- ASCII letter, class `[a-zA-Z]`. -/
def asciiLetter (c : Char) : Bool := c.isAlpha

/-- Does a character list match the domain part `[a-zA-Z0-9.-]+\.[a-zA-Z]{2,}`
anchored at both ends?  Since the final `[a-zA-Z]{2,}` run contains no dot,
the separating dot of any match is the last dot, so it suffices to split
at the last dot. -/
def emailDomainOk (dom : List Char) : Bool :=
  let tld := (dom.reverse.takeWhile (fun c => c != '.')).reverse
  if tld.length == dom.length then false
  else
    let pre := dom.take (dom.length - tld.length - 1)
    decide (pre ≠ []) && pre.all emailDomainChar && decide (2 ≤ tld.length) &&
      tld.all asciiLetter

/-- The body of the email regex
`^[a-zA-Z0-9._%+-]+@[a-zA-Z0-9.-]+\.[a-zA-Z]{2,}` up to the `$` assertion,
hand-compiled: neither character class contains `@`, so a match splits the
input at its unique `@`. -/
def validateEmailCore (l : List Char) : Bool :=
  match splitCharL '@' l with
  | [loc, dom] => decide (loc ≠ []) && loc.all emailLocalChar && emailDomainOk dom
  | _ => false

/-- `ConversationalAgent._validate_email`: `re.match` of the anchored
regex, with `$` also accepting one trailing newline (`matchDollar`). -/
def validateEmail (value : String) : Bool :=
  matchDollar validateEmailCore value.data

/-- The body of the phone regex `^[\d\s\-\(\)\+]+` up to `$`. -/
def phonePatOk (chars : List Char) : Bool :=
  decide (chars ≠ []) &&
    chars.all (fun c => c.isDigit || isWs c || c == '-' || c == '(' || c == ')' || c == '+')

/-- `ConversationalAgent._validate_phone`: the anchored regex (with `$`
trailing-newline semantics) plus at least 7 digits after stripping
non-digits from the whole value. -/
def validatePhone (value : String) : Bool :=
  matchDollar phonePatOk value.data &&
    decide (7 ≤ (value.data.filter Char.isDigit).length)

/-- The body of the url regex `^https?://[^\s]+` up to `$`. -/
def urlPatOk (chars : List Char) : Bool :=
  if leadMatch "https://".data chars then
    decide (chars.drop 8 ≠ []) && (chars.drop 8).all (fun c => ¬ isWs c)
  else if leadMatch "http://".data chars then
    decide (chars.drop 7 ≠ []) && (chars.drop 7).all (fun c => ¬ isWs c)
  else false

/-- `ConversationalAgent._validate_url`: `re.match` of the anchored regex,
with `$` trailing-newline semantics. -/
def validateUrl (value : String) : Bool :=
  matchDollar urlPatOk value.data

/-- `ConversationalAgent._validate_number`: `float(value)` succeeds. -/
def validateNumber (value : String) : Bool := (pyFloat value).isSome

/-- `ConversationalAgent._validate_field_value`. -/
def validateFieldValue (field : FieldConfig) (value : String) : Bool :=
  if value = "" ∨ value = "NOT_PROVIDED" ∨ value = "INVALID" then false
  else
    let typeOk : Bool :=
      match field.field_type with
      | "email" => validateEmail value
      | "phone" => validatePhone value
      | "url" => validateUrl value
      | "number" => validateNumber value
      | _ => true
    if ¬ typeOk then false
    else
      match field.validation_pattern with
      | some pat => pat value
      | none => true

/-! ### Escalation results and policy handlers
(`agent_core/escalation/result.py`, `handlers/*.py`) -/

/-- `EscalationResult`.  The free-form diagnostic `metadata` dict is not
modelled (no control flow reads it). -/
structure EscalationResult where
  should_escalate : Bool
  policy_id : String
  policy_type : String
  reason : String
  confidence : ℚ := 1
deriving DecidableEq

/-- `KeywordPolicyHandler.evaluate`. -/
def keywordEval (st : CState) (user_message : String) (cfg : PolicyConfig)
    (policy_id reason : String) : Option EscalationResult :=
  let keywords := cfg.keywords.getD []
  let case_sensitive := cfg.case_sensitive.getD false
  let match_whole_word := cfg.match_whole_word.getD false
  if keywords.isEmpty then none
  else
    let message_to_check := if case_sensitive then user_message else pyLower user_message
    let hit := keywords.find? fun keyword =>
      let keyword_to_match := if case_sensitive then keyword else pyLower keyword
      if match_whole_word then (pySplit message_to_check).contains keyword_to_match
      else containsSub keyword_to_match message_to_check
    hit.map fun _ =>
      { should_escalate := true, policy_id := policy_id, policy_type := "keyword",
        reason := reason, confidence := 1 }

/-- `TimeoutPolicyHandler.evaluate`.  The config value is modelled as
already numeric (`float(...)` conversion of a numeric `Any` succeeds). -/
def timeoutEval (now : ℚ) (st : CState) (cfg : PolicyConfig)
    (policy_id reason : String) : Option EscalationResult :=
  match cfg.max_duration_seconds with
  | none => none
  | some max_duration =>
    if st.get_duration_seconds now > max_duration then
      some { should_escalate := true, policy_id := policy_id, policy_type := "timeout",
             reason := reason, confidence := 1 }
    else none

/-- `CompletionPolicyHandler.evaluate`. -/
def completionEval (st : CState) (cfg : PolicyConfig)
    (policy_id reason : String) : Option EscalationResult :=
  let required_fields := cfg.required_fields.getD []
  let escalate_when_complete := cfg.escalate_when_complete.getD true
  if required_fields.isEmpty then none
  else
    let collected := st.collectedNames
    let all_collected := required_fields.all (fun f => collected.contains f)
    if escalate_when_complete ∧ all_collected then
      some { should_escalate := true, policy_id := policy_id, policy_type := "completion",
             reason := reason, confidence := 1 }
    else if ¬ escalate_when_complete ∧ ¬ all_collected then
      some { should_escalate := true, policy_id := policy_id, policy_type := "completion",
             reason := reason, confidence := 1 }
    else none

/-- `SentimentPolicyHandler._build_sentiment_prompt`. -/
def sentimentPrompt (st : CState) (user_message : String) (include_history : Bool) : String :=
  let context :=
    if include_history ∧ ¬ st.messages.isEmpty then
      let recent := st.messages.drop (st.messages.length - 5)
      let lines := recent.map fun m =>
        (if m.role = .user then "User" else "Agent") ++ ": " ++ m.content
      "Conversation context:\n" ++ String.intercalate "\n" lines ++ "\n\n"
    else ""
  context ++
  "Analyze the sentiment of this message and rate the level of frustration, anger, or negative emotion on a scale from 0.0 to 1.0.\n\nMessage: \"" ++
  user_message ++
  "\"\n\nInstructions:\n- 0.0 = Very positive or neutral sentiment\n- 0.5 = Mildly negative or slightly frustrated\n- 1.0 = Very negative, angry, or extremely frustrated\n\nRespond with ONLY a decimal number between 0.0 and 1.0, nothing else.\n\nSentiment score:"

/-- `SentimentPolicyHandler._parse_sentiment_response`. -/
def parseSentimentResponse (response : String) : Option ℚ :=
  (pyFloat (pyStrip response)).map clamp01

/-- `SentimentPolicyHandler.evaluate`. -/
def sentimentEval (llm : Option Oracle) (st : CState) (user_message : String)
    (cfg : PolicyConfig) (policy_id reason : String) : Option EscalationResult :=
  match llm with
  | none => none
  | some oracle =>
    let threshold := cfg.threshold.getD (7 / 10)
    let include_history := cfg.include_history.getD false
    match oracle (sentimentPrompt st user_message include_history) with
    | .error _ => none
    | .ok response =>
      match parseSentimentResponse response with
      | some score =>
        if score ≥ threshold then
          some { should_escalate := true, policy_id := policy_id, policy_type := "sentiment",
                 reason := reason, confidence := score }
        else none
      | none => none

/-- The default intent list of `LLMIntentPolicyHandler.evaluate`. -/
def defaultIntents : List String :=
  ["user wants to speak with a human",
   "user is requesting a human agent",
   "user wants to escalate the conversation",
   "user is expressing extreme frustration",
   "user is threatening to leave or cancel"]

/-- `LLMIntentPolicyHandler._build_intent_prompt`. -/
def intentPrompt (user_message : String) (intents : List String) : String :=
  let intents_list := String.intercalate "\n" (intents.map (fun i => "- " ++ i))
  "Analyze the following user message and determine if it matches any of these escalation intents:\n\n" ++
  intents_list ++
  "\n\nUser message: \"" ++ user_message ++
  "\"\n\nInstructions:\n1. If the message matches one of the intents, respond with:\n   DETECTED: [intent description]\n   CONFIDENCE: [0.0-1.0]\n\n2. If no intent is detected, respond with:\n   DETECTED: NONE\n   CONFIDENCE: 0.0\n\nOnly respond with the format above, nothing else.\n\nResponse:"

/-- Line loop of `LLMIntentPolicyHandler._parse_intent_response`: a
`ValueError` on a `CONFIDENCE:` line aborts the loop keeping the values
accumulated so far (the `except` clause returns them). -/
def parseIntentLines : List String → Option String → ℚ → (Option String × ℚ)
  | [], det, conf => (det, conf)
  | line :: rest, det, conf =>
    let l := pyStrip line
    if pyStartsWith "DETECTED:" l then
      let intent := pyStrip (pyReplace l "DETECTED:" "")
      if pyUpper intent ≠ "NONE" then parseIntentLines rest (some intent) conf
      else parseIntentLines rest det conf
    else if pyStartsWith "CONFIDENCE:" l then
      match pyFloat (pyStrip (pyReplace l "CONFIDENCE:" "")) with
      | some c => parseIntentLines rest det (clamp01 c)
      | none => (det, conf)
    else parseIntentLines rest det conf

/-- `LLMIntentPolicyHandler._parse_intent_response`. -/
def parseIntentResponse (response : String) : Option String × ℚ :=
  parseIntentLines ((splitCharL '\n' (pyStrip response).data).map String.mk) none 0

/-- The intent list actually used by `LLMIntentPolicyHandler.evaluate`:
the configured list, or the default set when absent or empty. -/
def effectiveIntents (cfg : PolicyConfig) : List String :=
  if (cfg.intents.getD []).isEmpty then defaultIntents else cfg.intents.getD []

/-- `LLMIntentPolicyHandler.evaluate`. -/
def intentEval (llm : Option Oracle) (st : CState) (user_message : String)
    (cfg : PolicyConfig) (policy_id reason : String) : Option EscalationResult :=
  match llm with
  | none => none
  | some oracle =>
    let confidence_threshold := cfg.confidence_threshold.getD (8 / 10)
    let intents := effectiveIntents cfg
    match oracle (intentPrompt user_message intents) with
    | .error _ => none
    | .ok response =>
      match parseIntentResponse response with
      | (detected_intent, confidence) =>
        if truthyStr detected_intent ∧ confidence ≥ confidence_threshold then
          some { should_escalate := true, policy_id := policy_id, policy_type := "llm_intent",
                 reason := reason, confidence := confidence }
        else none

/-! ### Escalation engine (`agent_core/escalation/engine.py`) -/

/-- `EscalationEngine.POLICY_PRIORITY` with the `.get(type, 999)` default. -/
def rank (policy_type : String) : Nat :=
  match policy_type with
  | "keyword" => 1
  | "timeout" => 2
  | "sentiment" => 3
  | "llm_intent" => 4
  | "completion" => 5
  | _ => 999

/-- Sort key relation of `_get_sorted_policies` over `(policy, index)`
pairs. -/
def polLE (a b : EscalationPolicy × Nat) : Prop :=
  rank a.1.policy_type ≤ rank b.1.policy_type

instance : DecidableRel polLE := fun a b => Nat.decLe _ _

instance : IsTotal (EscalationPolicy × Nat) polLE :=
  ⟨fun a b => Nat.le_total (rank a.1.policy_type) (rank b.1.policy_type)⟩

instance : IsTrans (EscalationPolicy × Nat) polLE :=
  ⟨fun _ _ _ h h2 => Nat.le_trans h h2⟩

/-- Pair every policy with its configuration index (Python `enumerate`,
swapped into `(policy, idx)` order as in `_get_sorted_policies`). -/
def withIdx : Nat → List EscalationPolicy → List (EscalationPolicy × Nat)
  | _, [] => []
  | n, p :: rest => (p, n) :: withIdx (n + 1) rest

/-- The `(policy, idx)` pairs of enabled policies in configuration order
(the filtered `enumerate` of `_get_sorted_policies`). -/
def enabledPolicies (ps : List EscalationPolicy) : List (EscalationPolicy × Nat) :=
  (withIdx 0 ps).filter (fun x => x.1.enabled)

/-- `EscalationEngine._get_sorted_policies`: stable sort of the enabled
policies by priority (Python `list.sort` is stable). -/
def sortedPolicies (ps : List EscalationPolicy) : List (EscalationPolicy × Nat) :=
  List.insertionSort polLE (enabledPolicies ps)

/-- The `policy_id` string `f"policy_{idx}_{policy.policy_type}"`. -/
def policyIdStr (idx : Nat) (policy_type : String) : String :=
  "policy_" ++ toString idx ++ "_" ++ policy_type

/-- One engine step: dispatch through `HANDLER_CLASSES` and evaluate
(`none` for a policy type with no registered handler). -/
def runPolicy (llm : Option Oracle) (now : ℚ) (st : CState) (user_message : String)
    (pi : EscalationPolicy × Nat) : Option EscalationResult :=
  let pid := policyIdStr pi.2 pi.1.policy_type
  match pi.1.policy_type with
  | "keyword" => keywordEval st user_message pi.1.config pid pi.1.reason
  | "timeout" => timeoutEval now st pi.1.config pid pi.1.reason
  | "sentiment" => sentimentEval llm st user_message pi.1.config pid pi.1.reason
  | "llm_intent" => intentEval llm st user_message pi.1.config pid pi.1.reason
  | "completion" => completionEval st pi.1.config pid pi.1.reason
  | _ => none

/-- The short-circuiting loop of `EscalationEngine.evaluate`. -/
def firstTrigger (llm : Option Oracle) (now : ℚ) (st : CState) (user_message : String) :
    List (EscalationPolicy × Nat) → Option EscalationResult
  | [] => none
  | pi :: rest =>
    match runPolicy llm now st user_message pi with
    | some r => if r.should_escalate then some r else firstTrigger llm now st user_message rest
    | none => firstTrigger llm now st user_message rest

/-- `EscalationEngine.evaluate`. -/
def engineEvaluate (llm : Option Oracle) (now : ℚ) (ps : List EscalationPolicy)
    (st : CState) (user_message : String) : Option EscalationResult :=
  firstTrigger llm now st user_message (sortedPolicies ps)

/-- `EscalationEngine.evaluate_all`. -/
def engineEvaluateAll (llm : Option Oracle) (now : ℚ) (ps : List EscalationPolicy)
    (st : CState) (user_message : String) : List EscalationResult :=
  (sortedPolicies ps).filterMap fun pi =>
    match runPolicy llm now st user_message pi with
    | some r => if r.should_escalate then some r else none
    | none => none

/-- `EscalationEngine.has_policies`. -/
def hasPolicies (ps : List EscalationPolicy) : Bool :=
  ps.any (fun p => p.enabled)

/-- A policy pair would trigger: its handler returns an escalating result. -/
def policyTriggers (llm : Option Oracle) (now : ℚ) (st : CState) (user_message : String)
    (pi : EscalationPolicy × Nat) : Prop :=
  ∃ r, runPolicy llm now st user_message pi = some r ∧ r.should_escalate = true

/-! ### Regular-expression fragment used by the detectors

`graph/nodes.py` matches fixed patterns built from literals, ordered
alternation, `?`, character-class `*`/`+` runs, one `(\w+)` capture group
and `$`.  The matcher below enumerates candidate matches in Python's
backtracking priority order (alternatives left to right, quantifiers
greedy), so the head of the candidate list is the match `re` returns.
Recursion is driven by a fuel bounded by the pattern tree depth (the
string-consuming loops are structural); `patFuel` exceeds the depth of
every pattern in the source. -/

/-- `\w` (ASCII fragment). -/
def isWordChar (c : Char) : Bool := c.isAlphanum || c == '_'

/-- Pattern syntax. -/
inductive Pat where
  | lit : List Char → Pat
  | cls : (Char → Bool) → Pat
  | alt : Pat → Pat → Pat
  | opt : Pat → Pat
  | cat : Pat → Pat → Pat
  | wordCap : Pat
  | starCls : (Char → Bool) → Pat
  | plusCls : (Char → Bool) → Pat
  | eos : Pat

/-- Consume a literal from the head of the input. -/
def dropLit : List Char → List Char → Option (List Char)
  | [], s => some s
  | _ :: _, [] => none
  | a :: as, b :: bs => if a == b then dropLit as bs else none

/-- All greedy-first splits of a maximal run of class characters:
`(consumed, rest)` pairs, longest consumed first. -/
def starSplits (p : Char → Bool) : List Char → List (List Char × List Char)
  | [] => [([], [])]
  | c :: cs =>
    if p c then (starSplits p cs).map (fun x => (c :: x.1, x.2)) ++ [([], c :: cs)]
    else [([], c :: cs)]

/-- Candidate matches of a pattern against the head of the input:
`(rest, capture)` pairs in backtracking priority order. -/
def matchPatF : Nat → Pat → List Char → Option String → List (List Char × Option String)
  | 0, _, _, _ => []
  | _ + 1, .lit w, s, cap =>
    match dropLit w s with
    | some rest => [(rest, cap)]
    | none => []
  | _ + 1, .cls p, s, cap =>
    match s with
    | [] => []
    | c :: rest => if p c then [(rest, cap)] else []
  | n + 1, .alt p q, s, cap => matchPatF n p s cap ++ matchPatF n q s cap
  | n + 1, .opt p, s, cap => matchPatF n p s cap ++ [(s, cap)]
  | n + 1, .cat p q, s, cap =>
    (matchPatF n p s cap).flatMap (fun x => matchPatF n q x.1 x.2)
  | _ + 1, .wordCap, s, _ =>
    (starSplits isWordChar s).filterMap
      (fun x => if x.1.isEmpty then none else some (x.2, some (String.mk x.1)))
  | _ + 1, .starCls p, s, cap => (starSplits p s).map (fun x => (x.2, cap))
  | _ + 1, .plusCls p, s, cap =>
    (starSplits p s).filterMap (fun x => if x.1.isEmpty then none else some (x.2, cap))
  | _ + 1, .eos, s, cap => if s.isEmpty then [([], cap)] else []

/-- Fuel that exceeds the depth of every pattern below. -/
def patFuel : Nat := 100

/-- Model of anchored `re.match`: the capture of group 1 of the preferred
match at the start of the input, `none` when there is no match. -/
def matchAt (p : Pat) (s : List Char) : Option (Option String) :=
  match matchPatF patFuel p s none with
  | x :: _ => some x.2
  | [] => none

/-- Model of unanchored `re.search`: leftmost match wins. -/
def searchGo (p : Pat) : List Char → Option (Option String)
  | [] => matchAt p []
  | c :: rest =>
    match matchAt p (c :: rest) with
    | some cap => some cap
    | none => searchGo p rest

/-- Sequence a list of patterns. -/
def pseq (l : List Pat) : Pat := l.foldr Pat.cat (Pat.lit [])

/-- Ordered alternation of a list of patterns. -/
def palt : List Pat → Pat
  | [] => Pat.lit []
  | [p] => p
  | p :: rest => Pat.alt p (palt rest)

/-- Literal pattern from a string. -/
def plit (s : String) : Pat := Pat.lit s.data

/-- First entry of `CORRECTION_PATTERNS`:
`(?:no|nope|actually|sorry|wait),?\s*(?:my|the|it'?s?)\s+(\w+)\s+(?:is|should be|was)`. -/
def corrPat1 : Pat := pseq
  [palt [plit "no", plit "nope", plit "actually", plit "sorry", plit "wait"],
   Pat.opt (plit ","), Pat.starCls isWs,
   palt [plit "my", plit "the", pseq [plit "it", Pat.opt (plit "\x27"), Pat.opt (plit "s")]],
   Pat.plusCls isWs, Pat.wordCap, Pat.plusCls isWs,
   palt [plit "is", plit "should be", plit "was"]]

/-- Second entry of `CORRECTION_PATTERNS`:
`(?:i meant|i mean|that'?s? wrong|correction:?)\s+(?:my|the)?\s*(\w+)?`. -/
def corrPat2 : Pat := pseq
  [palt [plit "i meant", plit "i mean",
         pseq [plit "that", Pat.opt (plit "\x27"), Pat.opt (plit "s"), plit " wrong"],
         pseq [plit "correction", Pat.opt (plit ":")]],
   Pat.plusCls isWs, Pat.opt (palt [plit "my", plit "the"]), Pat.starCls isWs,
   Pat.opt Pat.wordCap]

/-- Third entry of `CORRECTION_PATTERNS`:
`(?:let me correct|please change|update)\s+(?:my|the)?\s*(\w+)?`. -/
def corrPat3 : Pat := pseq
  [palt [plit "let me correct", plit "please change", plit "update"],
   Pat.plusCls isWs, Pat.opt (palt [plit "my", plit "the"]), Pat.starCls isWs,
   Pat.opt Pat.wordCap]

/-- Fourth entry of `CORRECTION_PATTERNS`:
`(?:that'?s? not right|wrong)\s*[,.]?\s*(?:my|the|it'?s?)?\s*(\w+)?`. -/
def corrPat4 : Pat := pseq
  [palt [pseq [plit "that", Pat.opt (plit "\x27"), Pat.opt (plit "s"), plit " not right"],
         plit "wrong"],
   Pat.starCls isWs, Pat.opt (Pat.cls (fun c => c == ',' || c == '.')), Pat.starCls isWs,
   Pat.opt (palt [plit "my", plit "the",
                  pseq [plit "it", Pat.opt (plit "\x27"), Pat.opt (plit "s")]]),
   Pat.starCls isWs, Pat.opt Pat.wordCap]

/-- `CORRECTION_PATTERNS` (matched against the lower-cased utterance; the
source's redundant `re.IGNORECASE` is absorbed by the lower-casing). -/
def CORRECTION_PATS : List Pat := [corrPat1, corrPat2, corrPat3, corrPat4]

/-- First entry of `OFF_TOPIC_PATTERNS` (greetings / small talk).  Its `$`
is modelled as plain end-of-input: `check_off_topic_node` matches the
stripped utterance, so the before-trailing-newline case of `$` cannot
arise there. -/
def offPat1 : Pat := pseq
  [palt [plit "hi", plit "hello", plit "hey",
         pseq [plit "what", Pat.opt (plit "\x27"), Pat.opt (plit "s"), plit " up"],
         plit "how are you", plit "good morning", plit "good afternoon",
         plit "good evening"],
   Pat.starCls isWs, Pat.opt (Pat.cls (fun c => c == '!' || c == '.' || c == '?')), Pat.eos]

/-- Second entry of `OFF_TOPIC_PATTERNS` (meta questions). -/
def offPat2 : Pat := pseq
  [palt [plit "what", plit "who", plit "why", plit "how", plit "when", plit "where"],
   Pat.plusCls isWs,
   palt [plit "are you", plit "is this", plit "do you", plit "can you", plit "did"]]

/-- Third entry of `OFF_TOPIC_PATTERNS` (jokes / unrelated help). -/
def offPat3 : Pat := palt
  [pseq [plit "tell me ", palt [plit "a joke", plit "about", plit "more"]],
   pseq [plit "what", Pat.opt (plit "\x27"), Pat.opt (plit "s"), plit " the weather"],
   plit "help me with something else"]

/-- Fourth entry of `OFF_TOPIC_PATTERNS` (explicit topic changes). -/
def offPat4 : Pat := palt
  [plit "i have a question", plit "can i ask", plit "quick question", plit "unrelated but"]

/-- `OFF_TOPIC_PATTERNS` (matched case-insensitively via lower-casing). -/
def OFF_TOPIC_PATS : List Pat := [offPat1, offPat2, offPat3, offPat4]

/-! ### Transient per-turn graph state (`graph/state.py`) -/

/-- `GraphState`.  Of the free-form `metadata` dict the three keys written
by the nodes are modelled (`escalation_policy_id`, `escalation_confidence`,
`prompt_error`). -/
structure GState where
  conversation : CState
  user_message : String
  next_action : String := ""
  should_escalate : Bool := false
  escalation_reason : Option String := none
  is_correction : Bool := false
  correction_field : Option String := none
  is_off_topic : Bool := false
  extracted_value : Option String := none
  is_valid : Bool := false
  current_field : Option String := none
  response : String := ""
  meta_escalation_policy_id : Option String := none
  meta_escalation_confidence : Option ℚ := none
  meta_prompt_error : Bool := false

/-- `create_initial_state`. -/
def initialGState (conversation : CState) (user_message : String) : GState :=
  { conversation := conversation, user_message := user_message }

/-- The per-turn environment: the resolved configuration, the text
capability, and the current wall-clock time. -/
structure Env where
  config : AgentConfig
  llm : Oracle
  now : ℚ

/-! ### Agent helpers (`agent_core/agent.py`) -/

/-- `ConversationalAgent.get_next_field_to_collect`: required fields
before optional ones, each in configuration order. -/
def getNextField (cfg : AgentConfig) (st : CState) : Option FieldConfig :=
  let collected := st.collectedNames
  match cfg.fields.find? (fun f => f.required && ¬ collected.contains f.name) with
  | some f => some f
  | none => cfg.fields.find? (fun f => ¬ f.required && ¬ collected.contains f.name)

/-- `ConversationalAgent._build_system_prompt`. -/
def buildSystemPrompt (cfg : AgentConfig) : String :=
  let p := cfg.personality
  let base :=
    ["You are a conversational AI assistant helping to collect information.",
     "Your tone should be " ++ p.tone ++ ".",
     "Your communication style is " ++ p.style ++ ".",
     "Your formality level is " ++ p.formality ++ "."]
  let emoji :=
    if p.emoji_usage then
      ["You may use emojis like: " ++ String.intercalate ", " (p.emoji_list.take 5)]
    else ["Do not use emojis in your responses."]
  let tail :=
    ["", "Guidelines:",
     "- Be helpful and guide the user through the information collection process.",
     "- Ask for one piece of information at a time.",
     "- Validate information when appropriate.",
     "- Be patient and understanding if the user makes mistakes.",
     "- Keep responses concise but friendly."]
  String.intercalate "\n" (base ++ emoji ++ tail)

/-- `ConversationalAgent._build_field_prompt`. -/
def buildFieldPrompt (cfg : AgentConfig) (field : FieldConfig) (st : CState) : String :=
  let recent :=
    if st.messages.length > 6 then st.messages.drop (st.messages.length - 6) else st.messages
  let msgLines := recent.map fun m =>
    (if m.role = .user then "User" else "Assistant") ++ ": " ++ m.content
  let hintLines :=
    match field.prompt_hint with
    | some h => if h = "" then [] else ["Hint for asking: " ++ h]
    | none => []
  String.intercalate "\n"
    ([buildSystemPrompt cfg, "", "Current conversation context:"] ++ msgLines ++
     ["", "Already collected information: " ++ pyDictRepr st.get_collected_data, "",
      "Next field to collect: " ++ field.name ++ " (type: " ++ field.field_type ++ ")"] ++
     hintLines ++
     ["", "Generate a natural response asking for this information.",
      "Keep it brief and conversational."])

/-- `ConversationalAgent._build_extraction_prompt` (its `state` argument
is unused in the source). -/
def buildExtractionPrompt (field : FieldConfig) (user_message : String) : String :=
  "Extract the " ++ field.name ++ " (" ++ field.field_type ++
  ") from the user\x27s message.\n\nUser message: \"" ++ user_message ++
  "\"\n\nField to extract: " ++ field.name ++ "\nField type: " ++ field.field_type ++
  "\nRequired: " ++ pyBool field.required ++
  "\n\nInstructions:\n- If the user provided a valid " ++ field.field_type ++
  ", respond with ONLY the extracted value.\n- If the user did not provide this information or it\x27s unclear, respond with \"NOT_PROVIDED\".\n- If the value seems invalid for the field type, respond with \"INVALID\".\n- Do not include any other text, just the value or status.\n\nResponse:"

/-! ### Graph nodes (`graph/nodes.py`) -/

/-- `check_escalation_node`. -/
def checkEscalationNode (env : Env) (g : GState) : GState :=
  if ¬ hasPolicies env.config.escalation_policies then
    { g with should_escalate := false, escalation_reason := none }
  else
    match engineEvaluate (some env.llm) env.now env.config.escalation_policies
        g.conversation g.user_message with
    | some r =>
      if r.should_escalate then
        { g with should_escalate := true, escalation_reason := some r.reason,
                 meta_escalation_policy_id := some r.policy_id,
                 meta_escalation_confidence := some r.confidence }
      else { g with should_escalate := false, escalation_reason := none }
    | none => { g with should_escalate := false, escalation_reason := none }

/-- The pattern loop of `check_correction_node`: `none` when no pattern
flags a correction, otherwise the optional target field.  A pattern whose
hint maps onto no collected field (or that captured nothing) only flags
when at least one field has been collected; otherwise the loop moves on
to the next pattern. -/
def correctionScan (collected : List String) : List Pat → List Char → Option (Option String)
  | [], _ => none
  | pat :: rest, m =>
    match searchGo pat m with
    | none => correctionScan collected rest m
    | some hint =>
      match hint with
      | some h =>
        match collected.find? (fun f => containsSub (pyLower h) (pyLower f)) with
        | some f => some (some f)
        | none => if collected.isEmpty then correctionScan collected rest m else some none
      | none => if collected.isEmpty then correctionScan collected rest m else some none

/-- The LLM fallback prompt of `check_correction_node` (the Python set of
field names is rendered in insertion order). -/
def correctionClassifyPrompt (user_message : String) (collected : List String) : String :=
  "Determine if the user is correcting a previously provided value.\n\nUser message: \"" ++
  user_message ++ "\"\n\nPreviously collected fields: " ++ pyListRepr collected ++
  "\n\nRespond with ONLY one of:\n- CORRECTION:<field_name> if correcting a specific field\n- CORRECTION:UNKNOWN if correcting but field unclear\n- NOT_CORRECTION if not a correction\n\nResponse:"

/-- `check_correction_node`. -/
def checkCorrectionNode (env : Env) (g : GState) : GState :=
  let m := pyStrip (pyLower g.user_message)
  let collected := g.conversation.collectedNames
  match correctionScan collected CORRECTION_PATS m.data with
  | some target => { g with is_correction := true, correction_field := target }
  | none =>
    let kws := ["no,", "actually", "sorry", "wrong", "correct", "meant"]
    if kws.any (fun k => containsSub k m) ∧ ¬ collected.isEmpty then
      match env.llm (correctionClassifyPrompt g.user_message collected) with
      | .ok resp =>
        let r := pyUpper (pyStrip resp)
        if pyStartsWith "CORRECTION:" r then
          let fieldPart := pyStrip (String.mk (afterCharL ':' r.data))
          { g with is_correction := true,
                   correction_field := if fieldPart = "UNKNOWN" then none else some fieldPart }
        else { g with is_correction := false, correction_field := none }
      | .error _ => { g with is_correction := false, correction_field := none }
    else { g with is_correction := false, correction_field := none }

/-- The LLM prompt of `check_off_topic_node`. -/
def offTopicPrompt (field : FieldConfig) (user_message : String) : String :=
  "Determine if the user\x27s response is relevant to the question being asked.\n\nWe are collecting: " ++
  field.name ++ " (" ++ field.field_type ++ ")\nUser\x27s response: \"" ++ user_message ++
  "\"\n\nA response is OFF-TOPIC if it:\n- Asks unrelated questions\n- Changes the subject entirely\n- Doesn\x27t attempt to provide the requested information\n\nA response is ON-TOPIC if it:\n- Attempts to provide the requested information (even if incomplete/invalid)\n- Asks for clarification about the question\n- Requests to skip or decline\n\nRespond with ONLY: ON_TOPIC or OFF_TOPIC\n\nResponse:"

/-- `check_off_topic_node`. -/
def checkOffTopicNode (env : Env) (g : GState) : GState :=
  let m := pyStrip g.user_message
  let ml := (pyLower m).data
  if OFF_TOPIC_PATS.any (fun p => (matchAt p ml).isSome) then
    { g with is_off_topic := true }
  else
    match getNextField env.config g.conversation with
    | some field =>
      match env.llm (offTopicPrompt field g.user_message) with
      | .ok resp => { g with is_off_topic := containsSub "OFF_TOPIC" (pyUpper (pyStrip resp)) }
      | .error _ => { g with is_off_topic := false }
    | none => { g with is_off_topic := false }

/-- `extract_field_node`. -/
def extractFieldNode (env : Env) (g : GState) : GState :=
  let fieldOpt :=
    if g.is_correction ∧ truthyStr g.correction_field then
      match g.correction_field with
      | some cf =>
        match env.config.fields.find? (fun f => f.name == cf) with
        | some f => some f
        | none => getNextField env.config g.conversation
      | none => getNextField env.config g.conversation
    else getNextField env.config g.conversation
  match fieldOpt with
  | none => { g with extracted_value := none, current_field := none }
  | some field =>
    let g2 := { g with current_field := some field.name }
    match env.llm (buildExtractionPrompt field g2.user_message) with
    | .ok v =>
      let ev := pyStrip v
      if ev = "NOT_PROVIDED" ∨ ev = "INVALID" then { g2 with extracted_value := none }
      else { g2 with extracted_value := some ev }
    | .error _ => { g2 with extracted_value := none }

/-- `validate_node`: validates the extracted value and writes it into the
conversation record only when it passes validation. -/
def validateNode (env : Env) (g : GState) : GState :=
  if ¬ truthyStr g.extracted_value ∨ ¬ truthyStr g.current_field then
    { g with is_valid := false }
  else
    match g.extracted_value, g.current_field with
    | some ev, some cfName =>
      match env.config.fields.find? (fun f => f.name == cfName) with
      | none => { g with is_valid := false }
      | some field =>
        if validateFieldValue field ev then
          { g with is_valid := true,
                   conversation := g.conversation.update_field_value env.now cfName (some ev) true }
        else { g with is_valid := false }
    | _, _ => { g with is_valid := false }

/-- The off-topic redirect prompt of `prompt_next_node`. -/
def redirectPrompt (cfg : AgentConfig) (field : FieldConfig) (user_message : String) : String :=
  buildSystemPrompt cfg ++
  "\n\nThe user went off-topic. Gently redirect them back to the conversation.\n\nUser\x27s off-topic message: \"" ++
  user_message ++ "\"\nWe need to collect: " ++ field.name ++ " (" ++ field.field_type ++
  ")\n\nGenerate a brief, friendly response that:\n1. Briefly acknowledges their message (don\x27t be dismissive)\n2. Gently redirects them to provide the " ++
  field.name ++ "\n\nKeep it short and conversational."

/-- The invalid-input prompt of `prompt_next_node`. -/
def invalidPrompt (cfg : AgentConfig) (field : FieldConfig) (user_message : String) : String :=
  buildSystemPrompt cfg ++
  "\n\nThe user\x27s response didn\x27t contain a valid " ++ field.name ++
  ".\n\nUser\x27s message: \"" ++ user_message ++ "\"\nField needed: " ++ field.name ++
  " (type: " ++ field.field_type ++
  ")\n\nGenerate a brief, helpful response that:\n1. Explains what format is expected\n2. Asks them to try again\n\nKeep it friendly and concise."

/-- The standard field prompt step at the end of `prompt_next_node`. -/
def stdFieldPromptStep (env : Env) (g : GState) (field : FieldConfig) : GState :=
  match env.llm (buildFieldPrompt env.config field g.conversation) with
  | .ok r => { g with response := pyStrip r }
  | .error _ =>
    { g with response := "Could you please provide your " ++ field.name ++ "?",
             meta_prompt_error := true }

/-- `prompt_next_node`. -/
def promptNextNode (env : Env) (g : GState) : GState :=
  match getNextField env.config g.conversation with
  | none => { g with response := "Thank you for providing all the information." }
  | some field =>
    if g.is_off_topic then
      match env.llm (redirectPrompt env.config field g.user_message) with
      | .ok r => { g with response := pyStrip r }
      | .error _ =>
        { g with response :=
            "I appreciate that! Could you please provide your " ++ field.name ++ "?" }
    else if g.extracted_value = none ∧ g.user_message ≠ "" then
      match env.llm (invalidPrompt env.config field g.user_message) with
      | .ok r => { g with response := pyStrip r }
      | .error _ => stdFieldPromptStep env g field
    else stdFieldPromptStep env g field

/-- `escalate_node`: marks the record escalated (Python `or` takes the
default when the reason is `None` or empty) and produces the fixed
hand-off reply; it appends no message itself. -/
def escalateNode (env : Env) (g : GState) : GState :=
  let reason :=
    match g.escalation_reason with
    | some r => if r = "" then "User requested human agent" else r
    | none => "User requested human agent"
  { g with conversation := g.conversation.mark_escalated env.now reason g.meta_escalation_policy_id,
           response := "I understand you\x27d like to speak with a human agent. I\x27m connecting you now. Thank you for your patience." }

/-- The completion prompt of `complete_node`. -/
def completionPromptStr (cfg : AgentConfig) (st : CState) : String :=
  buildSystemPrompt cfg ++ "\n\nAll required information has been collected:\n" ++
  pyDictRepr st.get_collected_data ++
  "\n\nGenerate a brief, friendly thank you message confirming the information was received.\nKeep it short (1-2 sentences)."

/-- `complete_node`. -/
def completeNode (env : Env) (g : GState) : GState :=
  let resp :=
    match env.llm (completionPromptStr env.config g.conversation) with
    | .ok r => pyStrip r
    | .error _ => "Thank you! We have all the information we need."
  { g with response := resp, conversation := g.conversation.mark_completed env.now }

/-! ### Edge routing (`graph/edges.py`) and the compiled graph
(`graph/builder.py`) -/

/-- Targets of `route_after_escalation_check`. -/
inductive EscRoute where
  | escalate
  | check_correction
deriving DecidableEq

/-- `route_after_escalation_check`. -/
def routeAfterEscalationCheck (g : GState) : EscRoute :=
  if g.should_escalate then .escalate else .check_correction

/-- Targets of `route_after_correction_check`. -/
inductive CorrRoute where
  | extract_field
  | check_off_topic
deriving DecidableEq

/-- `route_after_correction_check`. -/
def routeAfterCorrectionCheck (g : GState) : CorrRoute :=
  if g.is_correction then .extract_field else .check_off_topic

/-- Targets of `route_after_off_topic_check`. -/
inductive OffTopicRoute where
  | extract_field
  | prompt_next
  | complete
deriving DecidableEq

/-- `route_after_off_topic_check`. -/
def routeAfterOffTopicCheck (env : Env) (g : GState) : OffTopicRoute :=
  match getNextField env.config g.conversation with
  | none => .complete
  | some _ => if g.is_off_topic then .prompt_next else .extract_field

/-- Targets of `route_after_validate`. -/
inductive ValidateRoute where
  | prompt_next
  | complete
deriving DecidableEq

/-- `route_after_validate`. -/
def routeAfterValidate (env : Env) (g : GState) : ValidateRoute :=
  match getNextField env.config g.conversation with
  | none => .complete
  | some _ => .prompt_next

/-- The `extract_field → validate → (prompt_next | complete)` chain. -/
def runExtractChain (env : Env) (g : GState) : GState :=
  let g4 := extractFieldNode env g
  let g5 := validateNode env g4
  match routeAfterValidate env g5 with
  | .complete => completeNode env g5
  | .prompt_next => promptNextNode env g5

/-- One traversal of the compiled conversation graph
(`create_conversation_graph`), from `check_escalation` to a terminal
node. -/
def runGraph (env : Env) (g : GState) : GState :=
  let g1 := checkEscalationNode env g
  match routeAfterEscalationCheck g1 with
  | .escalate => escalateNode env g1
  | .check_correction =>
    let g2 := checkCorrectionNode env g1
    match routeAfterCorrectionCheck g2 with
    | .extract_field => runExtractChain env g2
    | .check_off_topic =>
      let g3 := checkOffTopicNode env g2
      match routeAfterOffTopicCheck env g3 with
      | .complete => completeNode env g3
      | .prompt_next => promptNextNode env g3
      | .extract_field => runExtractChain env g3

/-- `ConversationalAgent.process_message` (successful run): appends the
user message, runs the graph, appends the agent reply. -/
def processMessage (env : Env) (st : CState) (user_message : String) : String × CState :=
  let st1 := st.add_message env.now .user user_message
  let gf := runGraph env (initialGState st1 user_message)
  let st2 := gf.conversation.add_message env.now .agent gf.response
  (gf.response, st2)

/-! ### Auxiliary definitions for the claims -/

/-- The state-mutating operations of `ConversationState`. -/
inductive COp where
  | addMessage (role : Role) (content : String)
  | updateField (name : String) (value : Option String) (valid : Bool)
  | markEscalated (reason : String) (policy_id : Option String)
  | markCompleted
  | markFailed (reason : Option String)

/-- Apply one state-mutating operation. -/
def applyOp (now : ℚ) (st : CState) : COp → CState
  | .addMessage role content => st.add_message now role content
  | .updateField name v valid => st.update_field_value now name v valid
  | .markEscalated reason pid => st.mark_escalated now reason pid
  | .markCompleted => st.mark_completed now
  | .markFailed reason => st.mark_failed now reason

/-- Apply a sequence of state-mutating operations. -/
def applyOps (now : ℚ) : List COp → CState → CState
  | [], st => st
  | op :: rest, st => applyOps now rest (applyOp now st op)

/-- The keyword-match test of one keyword against the (already case-folded)
message, in whole-word or substring mode. -/
def kwMatchB (whole : Bool) (msg k : String) : Bool :=
  if whole then (pySplit msg).contains k else containsSub k msg

/-! ### Concrete fixtures used by witnesses and counterexamples -/

/-- A fresh active conversation. -/
def emptyState : CState := { session_id := "s", started_at := 0, updated_at := 0 }

/-- A conversation with a validly collected `email` field. -/
def collectedEmailState : CState :=
  { session_id := "s", started_at := 0, updated_at := 0,
    collected_fields := [("email", { field_name := "email", value := some "a@b.co",
                                     is_valid := true, attempts := 1 })] }

/-- An enabled keyword policy on the word `human`. -/
def keywordHumanPolicy : EscalationPolicy :=
  { enabled := true, reason := "wants human", policy_type := "keyword",
    config := { keywords := some ["human"] } }

/-- A configuration collecting a single required email field. -/
def emailOnlyConfig : AgentConfig := { fields := [{ name := "email", field_type := "email" }] }

/-- A capability that always answers with the same text. -/
def okOracle (reply : String) : Oracle := fun _ => .ok reply

/-- A capability whose every call fails. -/
def errOracle : Oracle := fun _ => .error ()

/-- Environment whose capability always answers `notanemail`. -/
def plainEnv : Env := { config := emailOnlyConfig, llm := okOracle "notanemail", now := 0 }

/-- Environment whose capability always fails. -/
def errEnv : Env := { config := emailOnlyConfig, llm := errOracle, now := 0 }

/-! ## Claims -/

/-- C10: the completion policy handler returns no outcome when its
configured `required_fields` list is missing or empty, whatever the
conversation state and the `escalate_when_complete` flag — in particular,
with the flag false it never triggers on an empty required list even
though no field is collected. -/
theorem C10_completion_empty_required_no_outcome (st : CState) (cfg : PolicyConfig)
    (pid reason : String)
    (h : cfg.required_fields = none ∨ cfg.required_fields = some []) :
    completionEval st cfg pid reason = none := by
  rcases h with h | h <;> simp [completionEval, h]

/-- Witness for C10: `escalate_when_complete = false`, no `required_fields`
key, nothing collected — still no outcome. -/
theorem C10_completion_empty_required_no_outcome_witness :
    completionEval emptyState { escalate_when_complete := some false }
      "policy_0_completion" "done" = none :=
  C10_completion_empty_required_no_outcome emptyState _ _ _ (Or.inl rfl)

/-- C7: the state-mutating operations never move a terminal status
(Completed, Escalated, Failed) back to Active: under any sequence of
operations a non-active status stays non-active. -/
theorem C7_status_one_way_terminal (now : ℚ) (ops : List COp) (st : CState)
    (h : st.status ≠ .active) : (applyOps now ops st).status ≠ .active := by
  induction ops generalizing st with
  | nil => exact h
  | cons op rest ih =>
    rw [applyOps]
    refine ih _ ?_
    cases op with
    | addMessage r c => simpa [applyOp, CState.add_message] using h
    | updateField n v b => simpa [applyOp, CState.update_field_value] using h
    | markEscalated r p => simp [applyOp, CState.mark_escalated]
    | markCompleted => simp [applyOp, CState.mark_completed]
    | markFailed r => simp [applyOp, CState.mark_failed]

/-- Witness for C7: an escalated conversation stays non-active under
further message and field operations. -/
theorem C7_status_one_way_terminal_witness :
    (applyOps 0 [.addMessage .user "hi", .updateField "email" (some "x") false]
      (emptyState.mark_escalated 0 "r" none)).status ≠ .active :=
  C7_status_one_way_terminal 0 _ _ (by decide)

/-- C5: at the CheckOffTopic step, when no uncollected field remains the
router goes to Complete regardless of the off-topic flag; when a field
remains, the flag alone decides between PromptNext and ExtractField. -/
theorem C5_off_topic_routing (env : Env) (g : GState) :
    (getNextField env.config g.conversation = none →
      routeAfterOffTopicCheck env g = .complete) ∧
    (∀ f, getNextField env.config g.conversation = some f →
      routeAfterOffTopicCheck env g =
        if g.is_off_topic then .prompt_next else .extract_field) := by
  constructor
  · intro h; simp [routeAfterOffTopicCheck, h]
  · intro f h; simp [routeAfterOffTopicCheck, h]

/-- Witness for C5: with the only field collected and the utterance flagged
off-topic the route is Complete; with it uncollected and flagged off-topic
the route is PromptNext. -/
theorem C5_off_topic_routing_witness :
    routeAfterOffTopicCheck errEnv
      { conversation := collectedEmailState, user_message := "hi", is_off_topic := true } =
        .complete ∧
    routeAfterOffTopicCheck errEnv
      { conversation := emptyState, user_message := "hi", is_off_topic := true } =
        .prompt_next :=
  ⟨(C5_off_topic_routing errEnv _).1 rfl,
   (C5_off_topic_routing errEnv _).2 { name := "email", field_type := "email" } rfl⟩

/-- C4: the sentiment and llm_intent handlers return no outcome when the
capability call fails or the reply does not parse (no numeric score, no
parseable `DETECTED` line): the failure is never propagated and never
triggers escalation. -/
theorem C4_capability_failure_no_outcome (oracle : Oracle) (st : CState)
    (msg : String) (cfg : PolicyConfig) (pid reason : String) :
    ((oracle (sentimentPrompt st msg (cfg.include_history.getD false)) = .error () ∨
      (∃ resp, oracle (sentimentPrompt st msg (cfg.include_history.getD false)) = .ok resp ∧
        parseSentimentResponse resp = none)) →
      sentimentEval (some oracle) st msg cfg pid reason = none) ∧
    ((oracle (intentPrompt msg (effectiveIntents cfg)) = .error () ∨
      (∃ resp, oracle (intentPrompt msg (effectiveIntents cfg)) = .ok resp ∧
        (parseIntentResponse resp).1 = none)) →
      intentEval (some oracle) st msg cfg pid reason = none) := by
  constructor
  · rintro (herr | ⟨resp, hok, hparse⟩) <;> rw [sentimentEval]
    · rw [herr]
    · rw [hok]; dsimp only; rw [hparse]
  · rintro (herr | ⟨resp, hok, hparse⟩) <;> rw [intentEval]
    · rw [herr]
    · rw [hok]; dsimp only
      rcases hp : parseIntentResponse resp with ⟨det, conf⟩
      rw [hp] at hparse
      simp only at hparse
      subst hparse
      rfl

/-- Witness for C4: a failing capability call silences the sentiment
handler; an unparseable reply silences the intent handler. -/
theorem C4_capability_failure_no_outcome_witness :
    sentimentEval (some errOracle) emptyState "ugh" {} "p" "r" = none ∧
    intentEval (some (okOracle "garbage")) emptyState "ugh" {} "p" "r" = none :=
  ⟨(C4_capability_failure_no_outcome errOracle emptyState "ugh" {} "p" "r").1 (Or.inl rfl),
   (C4_capability_failure_no_outcome (okOracle "garbage") emptyState "ugh" {} "p" "r").2
     (Or.inr ⟨"garbage", rfl, by decide⟩)⟩

/-! ### Support lemmas for C8 (email validation) -/

/-- `splitCharL` never returns the empty list. -/
theorem splitCharL_ne_nil (c : Char) : ∀ l : List Char, splitCharL c l ≠ [] := by
  intro l
  induction l with
  | nil => simp [splitCharL]
  | cons x rest ih =>
    rw [splitCharL]
    split
    · simp
    · cases h : splitCharL c rest with
      | nil => exact absurd h ih
      | cons t ts => simp [h]

/-- A one-piece split means the separator is absent. -/
theorem splitCharL_singleton (c : Char) :
    ∀ l b : List Char, splitCharL c l = [b] → l = b ∧ c ∉ b := by
  intro l
  induction l with
  | nil => intro b h; rw [splitCharL] at h; cases h; simp
  | cons x rest ih =>
    intro b h
    rw [splitCharL] at h
    split at h
    · injection h with h1 h2
      exact absurd h2 (splitCharL_ne_nil c rest)
    · next hx =>
      cases hs : splitCharL c rest with
      | nil => exact absurd hs (splitCharL_ne_nil c rest)
      | cons t ts =>
        rw [hs] at h
        injection h with h1 h2
        subst h2
        obtain ⟨rfl, hmem⟩ := ih t hs
        have hxc : x ≠ c := by simpa using hx
        refine ⟨h1, ?_⟩
        rw [← h1]
        intro hc
        rcases List.mem_cons.mp hc with hc1 | hc2
        · exact hxc hc1.symm
        · exact hmem hc2

/-- A two-piece split decomposes the list at its unique separator. -/
theorem splitCharL_pair (c : Char) :
    ∀ l a b : List Char, splitCharL c l = [a, b] → l = a ++ c :: b ∧ c ∉ a ∧ c ∉ b := by
  intro l
  induction l with
  | nil => intro a b h; rw [splitCharL] at h; cases h
  | cons x rest ih =>
    intro a b h
    rw [splitCharL] at h
    split at h
    · next hx =>
      have hxc : x = c := by simpa using hx
      injection h with h1 h2
      obtain ⟨rfl, hmem⟩ := splitCharL_singleton c rest b h2
      subst hxc
      exact ⟨by rw [← h1]; rfl, by rw [← h1]; simp, hmem⟩
    · next hx =>
      cases hs : splitCharL c rest with
      | nil => exact absurd hs (splitCharL_ne_nil c rest)
      | cons t ts =>
        rw [hs] at h
        injection h with h1 h2
        subst h1
        have hts : splitCharL c rest = [t, b] := by rw [hs, h2]
        obtain ⟨rfl, hat, hbt⟩ := ih t b hts
        have hxc : x ≠ c := by simpa using hx
        refine ⟨rfl, ?_, hbt⟩
        intro hc
        rcases List.mem_cons.mp hc with hc1 | hc2
        · exact hxc hc1.symm
        · exact hat hc2

/-- The first character surviving `dropWhile` fails the predicate. -/
theorem dropWhile_head_false {p : Char → Bool} :
    ∀ (l : List Char) c rest, l.dropWhile p = c :: rest → p c = false := by
  intro l
  induction l with
  | nil => intro c rest h; simp [List.dropWhile] at h
  | cons x xs ih =>
    intro c rest h
    rw [List.dropWhile_cons] at h
    split at h
    · exact ih _ _ h
    · next hx => cases h; simpa using hx

/-- A domain accepted by `emailDomainOk` splits as a nonempty prefix, a
dot, and a trailing run of at least two ASCII letters. -/
theorem emailDomainOk_decomp (dom : List Char) (h : emailDomainOk dom = true) :
    ∃ pre tld, dom = pre ++ '.' :: tld ∧ pre ≠ [] ∧ 2 ≤ tld.length ∧
      tld.all asciiLetter = true := by
  simp only [emailDomainOk] at h
  split at h
  · cases h
  · next hne =>
    cases hd : dom.reverse.dropWhile (fun c => c != '.') with
    | nil =>
      exfalso
      have hsplit := List.takeWhile_append_dropWhile (fun c => c != '.') dom.reverse
      rw [hd, List.append_nil] at hsplit
      apply hne
      rw [List.length_reverse, hsplit, List.length_reverse]
      simp
    | cons c0 rest =>
      have hc0 : c0 = '.' := by
        simpa using dropWhile_head_false dom.reverse c0 rest hd
      subst hc0
      have hsplit := List.takeWhile_append_dropWhile (fun c => c != '.') dom.reverse
      rw [hd] at hsplit
      generalize hT : dom.reverse.takeWhile (fun c => c != '.') = T at hsplit h
      have hlens := congrArg List.length hsplit
      simp only [List.length_append, List.length_cons, List.length_reverse] at hlens
      have hdom : dom = rest.reverse ++ '.' :: T.reverse := by
        have h2 := congrArg List.reverse hsplit
        rw [List.reverse_reverse] at h2
        rw [← h2, List.reverse_append, List.reverse_cons]
        simp
      have harith : dom.length - T.reverse.length - 1 = rest.reverse.length := by
        rw [List.length_reverse, List.length_reverse]
        omega
      rw [harith, hdom, List.take_left] at h
      simp only [Bool.and_eq_true, decide_eq_true_eq] at h
      obtain ⟨⟨⟨hpre, _⟩, hlen2⟩, hall⟩ := h
      exact ⟨rest.reverse, T.reverse, hdom, hpre, hlen2, hall⟩

/-- A nonempty last character decomposes the list. -/
theorem lastChar?_decomp :
    ∀ (l : List Char) (c : Char), lastChar? l = some c → l = initChars l ++ [c] := by
  intro l
  induction l with
  | nil => intro c h; cases h
  | cons x xs ih =>
    intro c h
    cases xs with
    | nil =>
      simp only [lastChar?] at h
      injection h with h1
      subst h1
      rfl
    | cons y ys =>
      simp only [lastChar?] at h
      have hrec := ih c h
      simp only [initChars]
      rw [List.cons_append, ← hrec]

/-- Decomposition of the regex body: an accepted input splits at its
unique `@` into a nonempty local part and a domain ending in a dot
followed by at least two ASCII letters. -/
theorem validateEmailCore_decomp (l : List Char) (h : validateEmailCore l = true) :
    ∃ loc dom, l = loc ++ '@' :: dom ∧ loc ≠ [] ∧ '@' ∉ loc ∧ '@' ∉ dom ∧
      ∃ pre tld, dom = pre ++ '.' :: tld ∧ pre ≠ [] ∧ 2 ≤ tld.length ∧
        tld.all asciiLetter = true := by
  rw [validateEmailCore] at h
  split at h
  · next loc dom hsplit =>
    obtain ⟨hdec, hloc, hdom⟩ := splitCharL_pair '@' l loc dom hsplit
    simp only [Bool.and_eq_true, decide_eq_true_eq] at h
    obtain ⟨⟨hlocne, _⟩, hdomok⟩ := h
    obtain ⟨pre, tld, hdd, hpre, hlen, hall⟩ := emailDomainOk_decomp dom hdomok
    exact ⟨loc, dom, hdec, hlocne, hloc, hdom, pre, tld, hdd, hpre, hlen, hall⟩
  · cases h

/-- C8: email validation accepts a value only when it has exactly one
at-sign separating a nonempty local part from a nonempty domain containing
a dot followed by at least two ASCII letters that run to the end of the
value — save for at most one final newline, which `re`'s `$` permits.  Any
value lacking exactly one `@`, or with an empty domain, or without a dot
followed by at least two letters, is rejected. -/
theorem C8_email_validation_shape (field : FieldConfig) (value : String)
    (hf : field.field_type = "email")
    (h : validateFieldValue field value = true) :
    value.data.count '@' = 1 ∧
    ∃ loc dom, value.data = loc ++ '@' :: dom ∧ loc ≠ [] ∧ dom ≠ [] ∧
      ∃ pre tld nl, dom = pre ++ '.' :: tld ++ nl ∧ pre ≠ [] ∧ 2 ≤ tld.length ∧
        tld.all asciiLetter = true ∧ (nl = [] ∨ nl = ['\n']) := by
  have hemail : validateEmail value = true := by
    rw [validateFieldValue] at h
    split at h
    · cases h
    · rw [hf] at h
      simp only at h
      split at h
      · cases h
      · next hok => simpa using hok
  rw [validateEmail, matchDollar, Bool.or_eq_true] at hemail
  rcases hemail with hcore | hnl
  · obtain ⟨loc, dom, hdec, hlocne, hloc, hdom, pre, tld, hdd, hpre, hlen, hall⟩ :=
      validateEmailCore_decomp _ hcore
    constructor
    · rw [hdec, List.count_append, List.count_cons]
      rw [List.count_eq_zero.mpr hloc, List.count_eq_zero.mpr hdom]
      simp
    · refine ⟨loc, dom, hdec, hlocne, by rw [hdd]; simp, pre, tld, [], ?_, hpre, hlen,
        hall, Or.inl rfl⟩
      rw [hdd, List.append_nil]
  · cases hlast : lastChar? value.data with
    | none => rw [hlast] at hnl; cases hnl
    | some c =>
      rw [hlast] at hnl
      simp only [Bool.and_eq_true, beq_iff_eq] at hnl
      obtain ⟨rfl, hcore⟩ := hnl
      have hfull : value.data = initChars value.data ++ ['\n'] :=
        lastChar?_decomp value.data _ hlast
      obtain ⟨loc, dom0, hdec, hlocne, hloc, hdom0, pre, tld, hdd, hpre, hlen, hall⟩ :=
        validateEmailCore_decomp _ hcore
      have hfull2 : value.data = loc ++ '@' :: (dom0 ++ ['\n']) := by
        rw [hfull, hdec, List.append_assoc, List.cons_append]
      constructor
      · rw [hfull2, List.count_append, List.count_cons, List.count_append]
        rw [List.count_eq_zero.mpr hloc, List.count_eq_zero.mpr hdom0]
        simp
      · refine ⟨loc, dom0 ++ ['\n'], hfull2, hlocne, by simp, pre, tld, ['\n'], ?_,
          hpre, hlen, hall, Or.inr rfl⟩
        rw [hdd, List.append_assoc, List.cons_append]

/-- Witness for C8 at `a@b.co` and at `a@b.co` with a trailing newline
(which `re`'s `$` accepts): validation accepts both and each has the
required shape. -/
theorem C8_email_validation_shape_witness :
    ("a@b.co".data.count '@' = 1 ∧
      ∃ loc dom, "a@b.co".data = loc ++ '@' :: dom ∧ loc ≠ [] ∧ dom ≠ [] ∧
        ∃ pre tld nl, dom = pre ++ '.' :: tld ++ nl ∧ pre ≠ [] ∧ 2 ≤ tld.length ∧
          tld.all asciiLetter = true ∧ (nl = [] ∨ nl = ['\n'])) ∧
    ("a@b.co\n".data.count '@' = 1 ∧
      ∃ loc dom, "a@b.co\n".data = loc ++ '@' :: dom ∧ loc ≠ [] ∧ dom ≠ [] ∧
        ∃ pre tld nl, dom = pre ++ '.' :: tld ++ nl ∧ pre ≠ [] ∧ 2 ≤ tld.length ∧
          tld.all asciiLetter = true ∧ (nl = [] ∨ nl = ['\n'])) :=
  ⟨C8_email_validation_shape { name := "email", field_type := "email" } "a@b.co"
     rfl (by decide),
   C8_email_validation_shape { name := "email", field_type := "email" } "a@b.co\n"
     rfl (by decide)⟩

/-! ### Support lemmas for C9 (keyword case-insensitivity) -/

/-- `find?` succeeds exactly when `any` holds. -/
theorem find?_isSome_eq_any (p : String → Bool) :
    ∀ l : List String, (l.find? p).isSome = l.any p := by
  intro l
  induction l with
  | nil => rfl
  | cons x xs ih => cases hx : p x <;> simp [List.find?_cons, hx, ih]

/-- `Option.map` preserves `isSome`. -/
theorem isSome_map_eq {α β : Type} (f : α → β) (o : Option α) :
    (o.map f).isSome = o.isSome := by
  cases o <;> rfl

/-- With `case_sensitive=false` the keyword trigger decision is a function
of the case-folded message and keywords only. -/
theorem keywordEval_isSome_ci (st : CState) (msg : String) (cfg : PolicyConfig)
    (pid reason : String) (hcs : cfg.case_sensitive.getD false = false) :
    (keywordEval st msg cfg pid reason).isSome =
      (if (cfg.keywords.getD []).isEmpty then false
       else (cfg.keywords.getD []).any
          (fun k => kwMatchB (cfg.match_whole_word.getD false) (pyLower msg) (pyLower k))) := by
  rw [keywordEval, hcs]
  simp only [Bool.false_eq_true, if_false]
  cases hemp : (cfg.keywords.getD []).isEmpty
  · simp only [hemp, Bool.false_eq_true, if_false]
    rw [isSome_map_eq, find?_isSome_eq_any]
    rfl
  · simp [hemp]

/-- C9: with `case_sensitive=false`, the keyword handler's trigger decision
is invariant under changing the letter case of the utterance and of the
keywords, in both substring and whole-word modes. -/
theorem C9_keyword_case_insensitive (st st' : CState) (msg msg' : String)
    (cfg cfg' : PolicyConfig) (pid pid' reason reason' : String)
    (hcs : cfg.case_sensitive.getD false = false)
    (hcs' : cfg'.case_sensitive.getD false = false)
    (hmw : cfg'.match_whole_word = cfg.match_whole_word)
    (hmsg : pyLower msg' = pyLower msg)
    (hkw : (cfg'.keywords.getD []).map pyLower = (cfg.keywords.getD []).map pyLower) :
    (keywordEval st' msg' cfg' pid' reason').isSome =
    (keywordEval st msg cfg pid reason).isSome := by
  rw [keywordEval_isSome_ci _ _ _ _ _ hcs, keywordEval_isSome_ci _ _ _ _ _ hcs', hmw, hmsg]
  have hemp : (cfg'.keywords.getD []).isEmpty = (cfg.keywords.getD []).isEmpty := by
    cases h1 : cfg'.keywords.getD [] with
    | nil =>
      cases h2 : cfg.keywords.getD [] with
      | nil => rfl
      | cons b u => rw [h1, h2] at hkw; simp at hkw
    | cons a t =>
      cases h2 : cfg.keywords.getD [] with
      | nil => rw [h1, h2] at hkw; simp at hkw
      | cons b u => rfl
  rw [hemp]
  have hany : ∀ (l : List String) (P : String → Bool),
      l.any (fun k => P (pyLower k)) = (l.map pyLower).any P := by
    intro l P
    rw [List.any_map]
    rfl
  rw [hany, hany, hkw]

/-- Witness for C9: `HELP` against `I NEED help` and `help` against
`i need HELP` give the same decision. -/
theorem C9_keyword_case_insensitive_witness :
    (keywordEval emptyState "I NEED help" { keywords := some ["HELP"] } "p" "r").isSome =
    (keywordEval emptyState "i need HELP" { keywords := some ["help"] } "p" "r").isSome :=
  C9_keyword_case_insensitive emptyState emptyState "i need HELP" "I NEED help"
    { keywords := some ["help"] } { keywords := some ["HELP"] } "p" "p" "r" "r"
    rfl rfl rfl (by decide) (by decide)

/-! ### C2 — the attempt counter at the Validate step -/

/-- Looking up a key right after a map-replace assignment finds the new
value. -/
theorem lookupField_map_replace (name : String) (fv : FieldValue) :
    ∀ l : List (String × FieldValue), l.any (fun p => p.1 == name) = true →
      lookupField (l.map (fun p => if p.1 == name then (p.1, fv) else p)) name = some fv := by
  intro l
  induction l with
  | nil => intro h; simp at h
  | cons p rest ih =>
    intro h
    rw [List.map_cons]
    cases hp : p.1 == name
    · rw [List.any_cons, hp, Bool.false_or] at h
      rw [lookupField, List.find?_cons]
      simp only [hp, Bool.false_eq_true, if_false]
      exact ih h
    · rw [lookupField, List.find?_cons]
      simp [hp]

/-- Looking up a key right after appending a fresh entry finds it. -/
theorem lookupField_append_new (name : String) (fv : FieldValue) :
    ∀ l : List (String × FieldValue), l.any (fun p => p.1 == name) = false →
      lookupField (l ++ [(name, fv)]) name = some fv := by
  intro l
  induction l with
  | nil => intro _; simp [lookupField, List.find?]
  | cons p rest ih =>
    intro h
    rw [List.any_cons, Bool.or_eq_false_iff] at h
    rw [List.cons_append, lookupField, List.find?_cons]
    simp only [h.1, Bool.false_eq_true, if_false]
    exact ih h.2

/-- The dict write of `update_field_value` is observable at the written
key. -/
theorem lookupField_setFieldAssoc (l : List (String × FieldValue)) (name : String)
    (fv : FieldValue) : lookupField (setFieldAssoc l name fv) name = some fv := by
  rw [setFieldAssoc]
  cases hany : l.any (fun p => p.1 == name)
  · simp only [hany, Bool.false_eq_true, if_false]
    exact lookupField_append_new name fv l hany
  · simp only [hany, if_true]
    exact lookupField_map_replace name fv l hany

/-- C2 counterexample: a run of the turn graph that reaches Validate with
an extraction attempt for the `email` field whose value fails validation —
no FieldValue is created and no attempt counter is incremented
(`collected_fields` stays empty), contradicting "incremented on every
extraction attempt regardless of validity". -/
theorem C2_attempts_counterexample :
    (runGraph plainEnv (initialGState emptyState "bla")).current_field = some "email" ∧
    (runGraph plainEnv (initialGState emptyState "bla")).extracted_value = some "notanemail" ∧
    (runGraph plainEnv (initialGState emptyState "bla")).is_valid = false ∧
    (runGraph plainEnv (initialGState emptyState "bla")).conversation.collected_fields = [] := by
  decide

/-- C2 amended: `update_field_value` itself increments the attempt counter
on every call regardless of the validity flag, creating the `FieldValue`
lazily on first use — but the Validate step only invokes it when the
extracted value passes validation, so a failed attempt leaves the record
(and the counter) unchanged. -/
theorem C2_attempts_increment_amended :
    (∀ (st : CState) (now : ℚ) (name : String) (v : Option String) (valid : Bool),
      (lookupField (st.update_field_value now name v valid).collected_fields name).map
          (fun fv => fv.attempts) =
        some ((((lookupField st.collected_fields name).map (fun fv => fv.attempts)).getD 0)
          + 1)) ∧
    (∀ (env : Env) (g : GState) (ev cf : String) (field : FieldConfig),
      g.extracted_value = some ev → ev ≠ "" → g.current_field = some cf → cf ≠ "" →
      env.config.fields.find? (fun f => f.name == cf) = some field →
      validateFieldValue field ev = false →
      (validateNode env g).conversation = g.conversation) := by
  constructor
  · intro st now name v valid
    rw [CState.update_field_value]
    simp only [lookupField_setFieldAssoc]
    cases hlk : lookupField st.collected_fields name <;> simp [hlk]
  · intro env g ev cf field hev hev' hcf hcf' hfind hval
    rw [validateNode]
    rw [if_neg]
    · rw [hev, hcf]
      simp only [hfind, hval, Bool.false_eq_true, if_false]
    · rw [hev, hcf]
      simp [truthyStr, hev', hcf']

/-- Witness for the C2 amended claim: a first invalid write still bumps the
counter to 1 when made through `update_field_value` directly, and the
Validate step leaves the record untouched for an invalid email. -/
theorem C2_attempts_increment_amended_witness :
    (lookupField (emptyState.update_field_value 0 "email" (some "bad") false).collected_fields
        "email").map (fun fv => fv.attempts) = some 1 ∧
    (validateNode plainEnv
        { conversation := emptyState, user_message := "bla",
          extracted_value := some "notanemail", current_field := some "email" }).conversation =
      emptyState :=
  ⟨C2_attempts_increment_amended.1 emptyState 0 "email" (some "bad") false,
   C2_attempts_increment_amended.2 plainEnv
     { conversation := emptyState, user_message := "bla",
       extracted_value := some "notanemail", current_field := some "email" }
     "notanemail" "email" { name := "email", field_type := "email" }
     rfl (by decide) rfl (by decide) rfl (by decide)⟩

/-! ### C6 — correction cues without an identified target -/

/-- When some cue pattern matches but no matching hint maps onto a
collected field, the pattern loop flags a correction with no target —
provided at least one field has been collected. -/
theorem correctionScan_flags_no_target (collected : List String) :
    ∀ (pats : List Pat) (m : List Char),
      collected ≠ [] →
      (∃ p ∈ pats, (searchGo p m).isSome = true) →
      (∀ p ∈ pats, ∀ h, searchGo p m = some (some h) →
        collected.find? (fun f => containsSub (pyLower h) (pyLower f)) = none) →
      correctionScan collected pats m = some none := by
  intro pats
  induction pats with
  | nil => intro m _ hex _; simp at hex
  | cons p rest ih =>
    intro m hcol hex hnomap
    have hcolE : collected.isEmpty = false := by
      cases collected with
      | nil => exact absurd rfl hcol
      | cons a t => rfl
    rw [correctionScan]
    cases hs : searchGo p m with
    | none =>
      have hex' : ∃ q ∈ rest, (searchGo q m).isSome = true := by
        rcases hex with ⟨q, hq, hqs⟩
        rcases List.mem_cons.mp hq with rfl | hq'
        · rw [hs] at hqs; cases hqs
        · exact ⟨q, hq', hqs⟩
      exact ih m hcol hex' (fun q hq => hnomap q (List.mem_cons_of_mem _ hq))
    | some hint =>
      cases hint with
      | none => dsimp only; simp [hcolE]
      | some h =>
        dsimp only
        rw [hnomap p (List.mem_cons_self _ _) h hs]
        simp [hcolE]

/-- When the correction flag carries no target, the extraction step falls
back to the next uncollected field. -/
theorem extractFieldNode_target_fallback (env : Env) (g : GState)
    (h : truthyStr g.correction_field = false) :
    (extractFieldNode env g).current_field =
      (getNextField env.config g.conversation).map (fun f => f.name) := by
  rw [extractFieldNode]
  have hcond : ¬ (g.is_correction = true ∧ truthyStr g.correction_field = true) := by
    rintro ⟨_, h2⟩
    rw [h] at h2
    cases h2
  rw [if_neg hcond]
  cases hnf : getNextField env.config g.conversation with
  | none => rfl
  | some field =>
    simp only
    cases env.llm (buildExtractionPrompt field g.user_message) with
    | error e => rfl
    | ok v =>
      simp only
      split <;> rfl

/-- C6 counterexample: `i meant x` matches the second correction-cue
pattern with captured word `x`; nothing is collected, so the hint maps to
no already-collected field — yet the detector does not flag a correction
(the claim says it still would). -/
theorem C6_correction_counterexample :
    searchGo corrPat2 (pyStrip (pyLower "i meant x")).data = some (some "x") ∧
    emptyState.collectedNames = [] ∧
    (checkCorrectionNode plainEnv (initialGState emptyState "i meant x")).is_correction
      = false := by
  decide

/-- C6 amended: when a correction-cue pattern matches and no captured word
maps by substring onto a collected field (for any matching pattern), the
detector flags a correction with no target — provided at least one field
has already been collected (with none collected, nothing is flagged) —
and extraction then falls back to the next outstanding field. -/
theorem C6_correction_flag_without_target (env : Env) (g : GState)
    (hcol : g.conversation.collectedNames ≠ [])
    (hmatch : ∃ p ∈ CORRECTION_PATS,
      (searchGo p (pyStrip (pyLower g.user_message)).data).isSome = true)
    (hnomap : ∀ p ∈ CORRECTION_PATS, ∀ h,
      searchGo p (pyStrip (pyLower g.user_message)).data = some (some h) →
      g.conversation.collectedNames.find?
        (fun f => containsSub (pyLower h) (pyLower f)) = none) :
    (checkCorrectionNode env g).is_correction = true ∧
    (checkCorrectionNode env g).correction_field = none ∧
    ∀ (env2 : Env) (g2 : GState), truthyStr g2.correction_field = false →
      (extractFieldNode env2 g2).current_field =
        (getNextField env2.config g2.conversation).map (fun f => f.name) := by
  have hscan := correctionScan_flags_no_target _ CORRECTION_PATS _ hcol hmatch hnomap
  refine ⟨?_, ?_, fun env2 g2 h2 => extractFieldNode_target_fallback env2 g2 h2⟩ <;>
    rw [checkCorrectionNode] <;> rw [hscan]

/-- Witness for the C6 amended claim: with `email` collected, `i meant x`
flags a correction with no target, and target-less extraction falls back
to the next field. -/
theorem C6_correction_flag_without_target_witness :
    (checkCorrectionNode plainEnv (initialGState collectedEmailState "i meant x")).is_correction
      = true ∧
    (checkCorrectionNode plainEnv
        (initialGState collectedEmailState "i meant x")).correction_field = none ∧
    ∀ (env2 : Env) (g2 : GState), truthyStr g2.correction_field = false →
      (extractFieldNode env2 g2).current_field =
        (getNextField env2.config g2.conversation).map (fun f => f.name) :=
  C6_correction_flag_without_target plainEnv (initialGState collectedEmailState "i meant x")
    (by decide)
    ⟨corrPat2, by simp [CORRECTION_PATS], by decide⟩
    (by
      intro p hp h hsearch
      simp only [CORRECTION_PATS, List.mem_cons, List.not_mem_nil, or_false] at hp
      rcases hp with rfl | rfl | rfl | rfl
      · rw [show searchGo corrPat1 (pyStrip (pyLower
            (initialGState collectedEmailState "i meant x").user_message)).data = none
          from by decide] at hsearch
        cases hsearch
      · rw [show searchGo corrPat2 (pyStrip (pyLower
            (initialGState collectedEmailState "i meant x").user_message)).data
            = some (some "x") from by decide] at hsearch
        injection hsearch with hs
        injection hs with hs2
        subst hs2
        decide
      · rw [show searchGo corrPat3 (pyStrip (pyLower
            (initialGState collectedEmailState "i meant x").user_message)).data = none
          from by decide] at hsearch
        cases hsearch
      · rw [show searchGo corrPat4 (pyStrip (pyLower
            (initialGState collectedEmailState "i meant x").user_message)).data = none
          from by decide] at hsearch
        cases hsearch)

/-! ### C3 — exactly two messages per turn -/

/-- The escalation check never touches the conversation record. -/
theorem checkEscalationNode_conv (env : Env) (g : GState) :
    (checkEscalationNode env g).conversation = g.conversation := by
  simp only [checkEscalationNode]
  repeat' split
  all_goals rfl

/-- The correction check never touches the conversation record. -/
theorem checkCorrectionNode_conv (env : Env) (g : GState) :
    (checkCorrectionNode env g).conversation = g.conversation := by
  simp only [checkCorrectionNode]
  repeat' split
  all_goals rfl

/-- The off-topic check never touches the conversation record. -/
theorem checkOffTopicNode_conv (env : Env) (g : GState) :
    (checkOffTopicNode env g).conversation = g.conversation := by
  simp only [checkOffTopicNode]
  repeat' split
  all_goals rfl

/-- The extraction step never touches the conversation record. -/
theorem extractFieldNode_conv (env : Env) (g : GState) :
    (extractFieldNode env g).conversation = g.conversation := by
  simp only [extractFieldNode]
  repeat' split
  all_goals rfl

/-- The prompt step never touches the conversation record. -/
theorem promptNextNode_conv (env : Env) (g : GState) :
    (promptNextNode env g).conversation = g.conversation := by
  simp only [promptNextNode]
  repeat' split
  all_goals first
    | rfl
    | (simp only [stdFieldPromptStep]; split <;> rfl)

/-- A field write preserves the message history. -/
theorem update_field_value_messages (st : CState) (now : ℚ) (name : String)
    (v : Option String) (valid : Bool) :
    (st.update_field_value now name v valid).messages = st.messages := by
  rw [CState.update_field_value]

/-- Validation preserves the message history (it only writes field
values). -/
theorem validateNode_messages (env : Env) (g : GState) :
    (validateNode env g).conversation.messages = g.conversation.messages := by
  simp only [validateNode]
  repeat' split
  all_goals first | rfl | (simp only; rw [update_field_value_messages])

/-- Escalation marking preserves the message history (the hand-off reply
is added by the caller, not by the node). -/
theorem escalateNode_messages (env : Env) (g : GState) :
    (escalateNode env g).conversation.messages = g.conversation.messages := by
  rw [escalateNode, CState.mark_escalated]

/-- Completion marking preserves the message history. -/
theorem completeNode_messages (env : Env) (g : GState) :
    (completeNode env g).conversation.messages = g.conversation.messages := by
  rw [completeNode, CState.mark_completed]

/-- The extract–validate–reply chain preserves the message history. -/
theorem runExtractChain_messages (env : Env) (g : GState) :
    (runExtractChain env g).conversation.messages = g.conversation.messages := by
  simp only [runExtractChain]
  split
  · rw [completeNode_messages, validateNode_messages, extractFieldNode_conv]
  · rw [promptNextNode_conv, validateNode_messages, extractFieldNode_conv]

/-- No node of the turn graph appends a message: the whole traversal
preserves the message history. -/
theorem runGraph_messages (env : Env) (g : GState) :
    (runGraph env g).conversation.messages = g.conversation.messages := by
  simp only [runGraph]
  split
  · rw [escalateNode_messages, checkEscalationNode_conv]
  · split
    · rw [runExtractChain_messages, checkCorrectionNode_conv, checkEscalationNode_conv]
    · split
      · rw [completeNode_messages, checkOffTopicNode_conv, checkCorrectionNode_conv,
          checkEscalationNode_conv]
      · rw [promptNextNode_conv, checkOffTopicNode_conv, checkCorrectionNode_conv,
          checkEscalationNode_conv]
      · rw [runExtractChain_messages, checkOffTopicNode_conv, checkCorrectionNode_conv,
          checkEscalationNode_conv]

/-- C3: a successful `process_message` on a non-terminal record with a
non-empty utterance appends exactly two messages — the user utterance and
the agent reply — on every path through the graph. -/
theorem C3_process_message_two_messages (env : Env) (st : CState) (msg : String)
    (hactive : st.status = .active) (hmsg : msg ≠ "") :
    (processMessage env st msg).2.messages =
      st.messages ++ [⟨.user, msg, env.now⟩,
        ⟨.agent, (processMessage env st msg).1, env.now⟩] := by
  rw [processMessage]
  simp only [CState.add_message]
  rw [runGraph_messages]
  simp [CState.add_message, initialGState]

/-- Witness for C3 at a concrete environment and fresh active record. -/
theorem C3_process_message_two_messages_witness :
    (processMessage plainEnv emptyState "hi").2.messages =
      emptyState.messages ++ [⟨.user, "hi", 0⟩,
        ⟨.agent, (processMessage plainEnv emptyState "hi").1, 0⟩] :=
  C3_process_message_two_messages plainEnv emptyState "hi" rfl (by decide)

/-! ### C1 — priority order of the escalation engine -/

/-- Every pair produced by `withIdx n` has index at least `n`. -/
theorem withIdx_le : ∀ (n : Nat) (ps : List EscalationPolicy) (y : EscalationPolicy × Nat),
    y ∈ withIdx n ps → n ≤ y.2 := by
  intro n ps
  induction ps generalizing n with
  | nil => intro y hy; simp [withIdx] at hy
  | cons p rest ih =>
    intro y hy
    rw [withIdx] at hy
    rcases List.mem_cons.mp hy with rfl | hy'
    · exact Nat.le_refl n
    · exact Nat.le_of_succ_le (ih (n + 1) y hy')

/-- The indices produced by `withIdx` are strictly increasing. -/
theorem withIdx_pairwise (n : Nat) (ps : List EscalationPolicy) :
    (withIdx n ps).Pairwise (fun a b => a.2 < b.2) := by
  induction ps generalizing n with
  | nil => exact List.Pairwise.nil
  | cons p rest ih =>
    rw [withIdx]
    refine List.Pairwise.cons ?_ (ih (n + 1))
    intro y hy
    exact Nat.lt_of_lt_of_le (Nat.lt_succ_self n) (withIdx_le (n + 1) rest y hy)

/-- The enabled-policy pairs keep strictly increasing configuration
indices. -/
theorem enabledPolicies_pairwise (ps : List EscalationPolicy) :
    (enabledPolicies ps).Pairwise (fun a b => a.2 < b.2) :=
  (withIdx_pairwise 0 ps).filter _

/-- The enabled-policy pairs are pairwise distinct. -/
theorem enabledPolicies_nodup (ps : List EscalationPolicy) :
    (enabledPolicies ps).Nodup :=
  (enabledPolicies_pairwise ps).imp fun hab heq => absurd (heq ▸ hab) (Nat.lt_irrefl _)

/-- In an index-sorted list, a pair with smaller index forms a sublist
with any pair of larger index. -/
theorem pair_sublist_idx :
    ∀ (l : List (EscalationPolicy × Nat)) (a b : EscalationPolicy × Nat),
      l.Pairwise (fun x y => x.2 < y.2) → a ∈ l → b ∈ l → a.2 < b.2 → List.Sublist [a, b] l := by
  intro l
  induction l with
  | nil => intro a b _ ha; simp at ha
  | cons x xs ih =>
    intro a b hpw ha hb hab
    obtain ⟨hx, hxs⟩ := List.pairwise_cons.mp hpw
    rcases List.mem_cons.mp ha with rfl | ha'
    · rcases List.mem_cons.mp hb with rfl | hb'
      · exact absurd hab (Nat.lt_irrefl _)
      · exact List.cons_sublist_cons.mpr (List.singleton_sublist.mpr hb')
    · rcases List.mem_cons.mp hb with rfl | hb'
      · exact absurd hab (Nat.lt_asymm (hx a ha'))
      · exact (ih a b hxs ha' hb' hab).cons x

/-- Decomposition of the short-circuiting engine loop: a returned result
comes from the first triggering entry, every earlier entry not
triggering. -/
theorem firstTrigger_eq_some (llm : Option Oracle) (now : ℚ) (st : CState) (msg : String) :
    ∀ (l : List (EscalationPolicy × Nat)) (r : EscalationResult),
      firstTrigger llm now st msg l = some r →
      ∃ l₁ pi l₂, l = l₁ ++ pi :: l₂ ∧
        runPolicy llm now st msg pi = some r ∧ r.should_escalate = true ∧
        ∀ x ∈ l₁, ¬ policyTriggers llm now st msg x := by
  intro l
  induction l with
  | nil => intro r h; rw [firstTrigger] at h; cases h
  | cons pi rest ih =>
    intro r h
    rw [firstTrigger] at h
    cases hrp : runPolicy llm now st msg pi with
    | some r' =>
      rw [hrp] at h
      dsimp only at h
      by_cases hesc : r'.should_escalate = true
      · rw [if_pos hesc] at h
        injection h with h1
        subst h1
        exact ⟨[], pi, rest, rfl, hrp, hesc, by simp⟩
      · rw [if_neg hesc] at h
        obtain ⟨l₁, pj, l₂, rfl, hr, hesc2, hpre⟩ := ih r h
        refine ⟨pi :: l₁, pj, l₂, rfl, hr, hesc2, ?_⟩
        intro x hx
        rcases List.mem_cons.mp hx with rfl | hx'
        · rintro ⟨r₀, hr₀, hesc₀⟩
          rw [hrp] at hr₀
          injection hr₀ with h0
          subst h0
          exact hesc hesc₀
        · exact hpre x hx'
    | none =>
      rw [hrp] at h
      dsimp only at h
      obtain ⟨l₁, pj, l₂, rfl, hr, hesc2, hpre⟩ := ih r h
      refine ⟨pi :: l₁, pj, l₂, rfl, hr, hesc2, ?_⟩
      intro x hx
      rcases List.mem_cons.mp hx with rfl | hx'
      · rintro ⟨r₀, hr₀, _⟩
        rw [hrp] at hr₀
        cases hr₀
      · exact hpre x hx'

/-- C1: `evaluate()` returns an outcome only when some enabled policy's
handler triggers, and the returned outcome comes from a triggering policy
of minimal priority rank (keyword=1 < timeout=2 < sentiment=3 <
llm_intent=4 < completion=5), configuration order breaking ties; every
other triggering policy has strictly larger rank, or equal rank and a
position no earlier in the configuration. -/
theorem C1_evaluate_priority (llm : Option Oracle) (now : ℚ) (ps : List EscalationPolicy)
    (st : CState) (msg : String) (r : EscalationResult)
    (h : engineEvaluate llm now ps st msg = some r) :
    (rank "keyword" = 1 ∧ rank "timeout" = 2 ∧ rank "sentiment" = 3 ∧
     rank "llm_intent" = 4 ∧ rank "completion" = 5) ∧
    ∃ pi ∈ enabledPolicies ps,
      runPolicy llm now st msg pi = some r ∧ r.should_escalate = true ∧
      ∀ qj ∈ enabledPolicies ps, policyTriggers llm now st msg qj →
        rank pi.1.policy_type < rank qj.1.policy_type ∨
        (rank pi.1.policy_type = rank qj.1.policy_type ∧ pi.2 ≤ qj.2) := by
  refine ⟨⟨rfl, rfl, rfl, rfl, rfl⟩, ?_⟩
  rw [engineEvaluate] at h
  obtain ⟨l₁, pi, l₂, hdec, hrun, hesc, hpre⟩ := firstTrigger_eq_some llm now st msg _ r h
  have hperm : List.Perm (sortedPolicies ps) (enabledPolicies ps) := List.perm_insertionSort _ _
  have hmem_pi : pi ∈ enabledPolicies ps := by
    refine hperm.mem_iff.mp ?_
    rw [hdec]
    exact List.mem_append_right _ (List.mem_cons_self _ _)
  have hsorted : List.Sorted polLE (sortedPolicies ps) := List.sorted_insertionSort _ _
  have hnodup : (sortedPolicies ps).Nodup :=
    hperm.nodup_iff.mpr (enabledPolicies_nodup ps)
  refine ⟨pi, hmem_pi, hrun, hesc, ?_⟩
  intro qj hqj htrig
  have hqj_s : qj ∈ sortedPolicies ps := hperm.mem_iff.mpr hqj
  have hqj_notpre : qj ∉ l₁ := fun hq => hpre qj hq htrig
  have hqj_tail : qj ∈ pi :: l₂ := by
    rcases List.mem_append.mp (by rw [← hdec]; exact hqj_s) with h1 | h2
    · exact absurd h1 hqj_notpre
    · exact h2
  rcases List.mem_cons.mp hqj_tail with rfl | hqj_l2
  · exact Or.inr ⟨rfl, Nat.le_refl _⟩
  · have hple : polLE pi qj := by
      have hsub : List.Sublist (pi :: l₂) (sortedPolicies ps) := by
        rw [hdec]
        exact List.sublist_append_right _ _
      exact List.rel_of_sorted_cons (hsorted.sublist hsub) qj hqj_l2
    rcases Nat.lt_or_ge (rank pi.1.policy_type) (rank qj.1.policy_type) with hlt | hge
    · exact Or.inl hlt
    · have heq : rank pi.1.policy_type = rank qj.1.policy_type := Nat.le_antisymm hple hge
      refine Or.inr ⟨heq, ?_⟩
      by_contra hgt
      have hgt' : qj.2 < pi.2 := Nat.lt_of_not_le hgt
      have hpair : List.Sublist [qj, pi] (enabledPolicies ps) :=
        pair_sublist_idx _ qj pi (enabledPolicies_pairwise ps) hqj hmem_pi hgt'
      have hqp : polLE qj pi := Nat.le_of_eq heq.symm
      have hpair_s : List.Sublist [qj, pi] (sortedPolicies ps) :=
        List.pair_sublist_insertionSort hqp hpair
      have hne : qj ≠ pi := fun hq => absurd (hq ▸ hgt') (Nat.lt_irrefl _)
      rw [hdec] at hpair_s hnodup
      have hpi_notl2 : pi ∉ l₂ :=
        (List.nodup_cons.mp (hnodup.of_append_right)).1
      obtain ⟨s₁, s₂, hsplit, hs₁, hs₂⟩ := List.sublist_append_iff.mp hpair_s
      cases s₁ with
      | nil =>
        rw [List.nil_append] at hsplit
        rw [← hsplit] at hs₂
        rcases List.sublist_cons_iff.mp hs₂ with hsub | ⟨rtail, hcons, hsub⟩
        · exact hpi_notl2 (hsub.subset (by simp))
        · injection hcons with hc1 _
          exact hne hc1
      | cons y t =>
        have hy : y = qj := by
          have := congrArg (fun l => l.head?) hsplit
          simpa using this.symm
        subst hy
        exact hqj_notpre (hs₁.subset (List.mem_cons_self _ _))

/-- Witness for C1: a single enabled keyword policy on `human` triggers on
`let me talk to a human` and the engine returns its outcome. -/
theorem C1_evaluate_priority_witness :
    (rank "keyword" = 1 ∧ rank "timeout" = 2 ∧ rank "sentiment" = 3 ∧
     rank "llm_intent" = 4 ∧ rank "completion" = 5) ∧
    ∃ pi ∈ enabledPolicies [keywordHumanPolicy],
      runPolicy none 0 emptyState "let me talk to a human" pi =
        some { should_escalate := true, policy_id := "policy_0_keyword",
               policy_type := "keyword", reason := "wants human", confidence := 1 } ∧
      ({ should_escalate := true, policy_id := "policy_0_keyword",
         policy_type := "keyword", reason := "wants human",
         confidence := 1 } : EscalationResult).should_escalate = true ∧
      ∀ qj ∈ enabledPolicies [keywordHumanPolicy],
        policyTriggers none 0 emptyState "let me talk to a human" qj →
          rank pi.1.policy_type < rank qj.1.policy_type ∨
          (rank pi.1.policy_type = rank qj.1.policy_type ∧ pi.2 ≤ qj.2) :=
  C1_evaluate_priority none 0 [keywordHumanPolicy] emptyState "let me talk to a human"
    { should_escalate := true, policy_id := "policy_0_keyword",
      policy_type := "keyword", reason := "wants human", confidence := 1 }
    (by decide)

end Konko
